import Mathlib

/-!
S2E execution state: memory object cache, object access dispatch, plugin state registry

Shallow embedding of `qemu/s2e/S2EExecutionState.h`.

Conventions of the embedding.
* Pointers are natural numbers and `0` is `NULL`.
* `uint64_t` values are natural numbers below `2 ^ 64`.
* A run that dereferences `NULL`, fails an `assert`, or indexes outside an array
  ends in `Except.error` with the matching `Fault`; `assert` is compiled in.
* Code that lives outside this header (the klee engine, the out-of-line member
  functions, plugin factories) is taken as a parameter where an inline member calls it.
* The members that the header only declares (`clone`, `readMemoryConcrete`,
  `writeMemoryConcrete`, `getPhysicalAddress`, `getHostAddress`, the cache-backed object
  access) are modelled from the specification; each such definition says so. They run the
  embedded `lookup`, `update` and `invalidate` of the cache.
-/

namespace S2E

/-- Ways in which a run of the embedded code aborts. -/
inductive Fault where
  | nullDereference
  | assertionFailure
  | indexOutOfRange
  deriving DecidableEq, Repr

deriving instance DecidableEq for Except

/-- The type `klee::ObjectPair`, a pair of a `const MemoryObject*` (first) and a
`const ObjectState*` (second). -/
structure ObjectPair where
  first : Nat
  second : Nat
  deriving DecidableEq, Repr

/-- Width in bits of `uintptr_t` on the host (an LP64 host). -/
def uintptrBits : Nat := 64

/-- The value `(uintptr_t)-1` stored into a `uint64_t`. -/
def emptyAddress : Nat := (2 ^ uintptrBits - 1) % 2 ^ 64

/-- The struct `S2EMemObjectCache::CacheEntry`. -/
structure CacheEntry where
  address : Nat
  objPair : ObjectPair
  deriving DecidableEq, Repr

/-- The constructor `CacheEntry()`. -/
def CacheEntry.init : CacheEntry :=
  { address := emptyAddress, objPair := ObjectPair.mk 0 0 }

/-- The class template `S2EMemObjectCache<Size>`: `m_entries` is an array of exactly
`Size` entries. -/
structure S2EMemObjectCache (Size : Nat) where
  m_entries : Fin Size → CacheEntry
  m_hits : Nat
  m_misses : Nat
  m_cval : Nat
  m_chash : Nat

namespace S2EMemObjectCache

/-- The member `hash`: `Val % Size`. -/
def hash (Size : Nat) (Val : Nat) : Nat := Val % Size

/-- The statement `unsigned ha = hash(address);` where the `uint64_t` result is
narrowed to a 32-bit `unsigned`. -/
def slot (Size : Nat) (address : Nat) : Nat := hash Size address % 2 ^ 32

/-- The constructor `S2EMemObjectCache()`. -/
def init (Size : Nat) : S2EMemObjectCache Size :=
  { m_entries := fun _ => CacheEntry.init, m_hits := 0, m_misses := 0, m_cval := 0, m_chash := 0 }

/-- The statement `assert(p.first == p.second->getObject());`. The argument `getObject`
gives, for the `ObjectState` at a non-null pointer, the result of its `getObject()`. -/
def assertSameObject (getObject : Nat → Nat) (p : ObjectPair) : Except Fault Unit :=
  if p.second = 0 then Except.error Fault.nullDereference
  else if p.first = getObject p.second then Except.ok ()
  else Except.error Fault.assertionFailure

/-- The statement `assert(p.second && p.first);`. -/
def assertNonNull (p : ObjectPair) : Except Fault Unit :=
  if p.second ≠ 0 ∧ p.first ≠ 0 then Except.ok () else Except.error Fault.assertionFailure

/-- The member `lookup`. -/
def lookup {Size : Nat} (getObject : Nat → Nat) (c : S2EMemObjectCache Size) (address : Nat) :
    Except Fault ObjectPair :=
  let ha := slot Size address
  if h : ha < Size then
    let ce := c.m_entries ⟨ha, h⟩
    if address = ce.address then
      match assertSameObject getObject ce.objPair with
      | Except.error f => Except.error f
      | Except.ok _ => Except.ok ce.objPair
    else Except.ok (ObjectPair.mk 0 0)
  else Except.error Fault.indexOutOfRange

/-- The member `update`. -/
def update {Size : Nat} (getObject : Nat → Nat) (c : S2EMemObjectCache Size) (address : Nat)
    (p : ObjectPair) : Except Fault (S2EMemObjectCache Size) :=
  let ha := slot Size address
  if h : ha < Size then
    let c1 := { c with m_entries := Function.update c.m_entries ⟨ha, h⟩ (CacheEntry.mk address p) }
    let ce := c1.m_entries ⟨ha, h⟩
    match assertSameObject getObject ce.objPair with
    | Except.error f => Except.error f
    | Except.ok _ =>
      match assertNonNull ce.objPair with
      | Except.error f => Except.error f
      | Except.ok _ => Except.ok c1
  else Except.error Fault.indexOutOfRange

/-- The member `invalidate`. -/
def invalidate {Size : Nat} (c : S2EMemObjectCache Size) (address : Nat) :
    Except Fault (S2EMemObjectCache Size) :=
  let ha := slot Size address
  if h : ha < Size then
    let ce := c.m_entries ⟨ha, h⟩
    if ce.address = address then
      Except.ok { c with m_entries := Function.update c.m_entries ⟨ha, h⟩ CacheEntry.init }
    else Except.ok c
  else Except.error Fault.indexOutOfRange

/-- Entry number `i` of the table, when `i` is inside the array. -/
def entryAt {Size : Nat} (c : S2EMemObjectCache Size) (i : Nat) : Option CacheEntry :=
  if h : i < Size then some (c.m_entries ⟨i, h⟩) else none

end S2EMemObjectCache

/-- A pair that passes both assertions of `update`: object and snapshot are non-null and
the snapshot belongs to the object. -/
def ObjectPair.consistent (getObject : Nat → Nat) (p : ObjectPair) : Prop :=
  p.first ≠ 0 ∧ p.second ≠ 0 ∧ p.first = getObject p.second

instance (getObject : Nat → Nat) (p : ObjectPair) : Decidable (p.consistent getObject) := by
  unfold ObjectPair.consistent
  infer_instance

/-- A sample heap: the `ObjectState` at pointer `os` belongs to the `MemoryObject` at
pointer `os + 1000`. -/
def sampleGetObject : Nat → Nat := fun os => os + 1000

/-- A sample consistent pair. -/
def samplePairP : ObjectPair := ObjectPair.mk 1007 7

/-- A second sample consistent pair. -/
def samplePairQ : ObjectPair := ObjectPair.mk 1009 9

/-- A sample cache state: the fresh cache with `(5, samplePairP)` stored in slot 5. -/
def sampleCache : S2EMemObjectCache 101 :=
  { S2EMemObjectCache.init 101 with
    m_entries := Function.update (S2EMemObjectCache.init 101).m_entries ⟨5, by decide⟩
      (CacheEntry.mk 5 samplePairP) }

/-- Sequencing of two fallible steps. -/
def andThen {α β : Type} (x : Except Fault α) (k : α → Except Fault β) : Except Fault β :=
  match x with
  | Except.error f => Except.error f
  | Except.ok a => k a

/-- The type `PluginStateMap`, a `std::map<const Plugin*, PluginState*>`: the key-value
entries in increasing key order, keys being compared as pointers. -/
structure PluginStateMap where
  entries : List (Nat × Nat)
  deriving DecidableEq, Repr

namespace PluginStateMap

/-- The default-constructed map. -/
def empty : PluginStateMap := PluginStateMap.mk []

/-- Search of the entry list for a key. -/
def findIn : List (Nat × Nat) → Nat → Option Nat
  | [], _ => none
  | (k, v) :: t, key => if k = key then some v else findIn t key

/-- The call `m.find(key)`: the mapped value of the entry found, `none` for `m.end()`. -/
def find (m : PluginStateMap) (key : Nat) : Option Nat := findIn m.entries key

/-- Assignment into the entry list: replaces the value of an existing key, otherwise
inserts the new entry at its place in the key order. -/
def assignIn : List (Nat × Nat) → Nat → Nat → List (Nat × Nat)
  | [], key, val => [(key, val)]
  | (k, v) :: t, key, val =>
    if key < k then (key, val) :: (k, v) :: t
    else if key = k then (key, val) :: t
    else (k, v) :: assignIn t key val

/-- The statement `m[key] = val;`. -/
def assign (m : PluginStateMap) (key val : Nat) : PluginStateMap :=
  PluginStateMap.mk (assignIn m.entries key val)

end PluginStateMap

/-- The class `S2EExecutionState`. The field `addressSpace` is inherited from
`klee::ExecutionState`; its type belongs to klee and is a parameter. -/
structure S2EExecutionState (AddressSpace : Type) where
  addressSpace : AddressSpace
  m_stateID : Int
  m_PluginState : PluginStateMap
  m_symbexEnabled : Bool
  m_startSymbexAtPC : Nat
  m_active : Bool
  m_runningConcrete : Bool
  m_cpuRegistersState : Nat
  m_cpuSystemState : Nat
  m_memCache : S2EMemObjectCache 101
  m_cpuRegistersObject : Nat
  m_cpuSystemObject : Nat
  m_deviceState : Nat
  m_timersState : Nat

/-- The klee operations that the inline members call: `addressSpace.findObject(mo)`,
`addressSpace.getWriteable(mo, os)` with the address space it leaves behind, and the field
read `mo->address` for a non-null `mo`. -/
structure Klee (AddressSpace : Type) where
  findObject : AddressSpace → Nat → Nat
  getWriteable : AddressSpace → Nat → Nat → Nat × AddressSpace
  address : Nat → Nat

/-- The type `PluginStateFactory`: plugin code called with the plugin and the state; it
reads the state it is handed and returns a `PluginState*`. -/
abbrev PluginStateFactory (AddressSpace : Type) : Type :=
  Nat → S2EExecutionState AddressSpace → Nat

/-- What one call of `getPluginState` produces: the returned pointer, the state after the
call, and the argument lists of the factory invocations made during the call. -/
structure PluginStateResult (AddressSpace : Type) where
  ret : Nat
  state : S2EExecutionState AddressSpace
  invoked : List (Nat × S2EExecutionState AddressSpace)

namespace S2EExecutionState

variable {AddressSpace : Type}

/-- The declared member `fetchObjectStateMem`, defined out of line: a `const` member, so
besides its result it can only leave a new value of the `mutable` member `m_memCache`. -/
abbrev FetchObjectStateMem (AddressSpace : Type) : Type :=
  S2EExecutionState AddressSpace → Nat → Nat → Except Fault (ObjectPair × S2EMemObjectCache 101)

/-- The declared member `fetchObjectStateMemWritable`, defined out of line. -/
abbrev FetchObjectStateMemWritable (AddressSpace : Type) : Type :=
  S2EExecutionState AddressSpace → Nat → Nat → Except Fault (Nat × S2EExecutionState AddressSpace)

/-- The member `fetchObjectState`. -/
def fetchObjectState (K : Klee AddressSpace) (fetchObjectStateMem : FetchObjectStateMem AddressSpace)
    (s : S2EExecutionState AddressSpace) (mo tpm : Nat) :
    Except Fault (Nat × S2EExecutionState AddressSpace) :=
  if mo = s.m_cpuRegistersState ∨ mo = s.m_cpuSystemState then
    Except.ok (K.findObject s.addressSpace mo, s)
  else if mo = 0 then Except.error Fault.nullDereference
  else
    match fetchObjectStateMem s (K.address mo) tpm with
    | Except.error f => Except.error f
    | Except.ok (p, cache) => Except.ok (p.second, { s with m_memCache := cache })

/-- The member `fetchObjectStateWritable`. -/
def fetchObjectStateWritable (K : Klee AddressSpace)
    (fetchObjectStateMemWritable : FetchObjectStateMemWritable AddressSpace)
    (s : S2EExecutionState AddressSpace) (mo os : Nat) :
    Except Fault (Nat × S2EExecutionState AddressSpace) :=
  if mo = s.m_cpuRegistersState ∨ mo = s.m_cpuSystemState then
    Except.ok ((K.getWriteable s.addressSpace mo os).1,
      { s with addressSpace := (K.getWriteable s.addressSpace mo os).2 })
  else fetchObjectStateMemWritable s mo os

/-- The member `getPluginState`. -/
def getPluginState (s : S2EExecutionState AddressSpace) (plugin : Nat)
    (factory : PluginStateFactory AddressSpace) : Except Fault (PluginStateResult AddressSpace) :=
  match s.m_PluginState.find plugin with
  | none =>
    let ret := factory plugin s
    if ret = 0 then Except.error Fault.assertionFailure
    else Except.ok
      { ret := ret,
        state := { s with m_PluginState := s.m_PluginState.assign plugin ret },
        invoked := [(plugin, s)] }
  | some v => Except.ok { ret := v, state := s, invoked := [] }

/-- Successive calls `getPluginState(plugin, f)` for the factories `f` of a list, in order:
the results of the calls and the state after the last one. -/
def getPluginStateSeq (s : S2EExecutionState AddressSpace) (plugin : Nat) :
    List (PluginStateFactory AddressSpace) →
      Except Fault (List (Nat × List (Nat × S2EExecutionState AddressSpace)) ×
        S2EExecutionState AddressSpace)
  | [] => Except.ok ([], s)
  | f :: fs =>
    match getPluginState s plugin f with
    | Except.error e => Except.error e
    | Except.ok r =>
      match getPluginStateSeq r.state plugin fs with
      | Except.error e => Except.error e
      | Except.ok (rs, t) => Except.ok ((r.ret, r.invoked) :: rs, t)

/-- The object as a call `getPluginState(plugin, factory)` leaves it, whether the call
returns or stops at its failed assertion: the only write of the member function,
`m_PluginState[plugin] = ret;`, stands after `assert(ret);`. -/
def getPluginStateLeaves (s : S2EExecutionState AddressSpace) (plugin : Nat)
    (factory : PluginStateFactory AddressSpace) : S2EExecutionState AddressSpace :=
  match s.m_PluginState.find plugin with
  | none =>
    let ret := factory plugin s
    if ret = 0 then s
    else { s with m_PluginState := s.m_PluginState.assign plugin ret }
  | some _ => s

end S2EExecutionState

/-- A sample engine over a one-point address space: the snapshot of object `mo` is at
`mo + 1`, the writable snapshot at `mo + 2`, and object `mo` has address `16 * mo`. -/
def sampleKlee : Klee Unit :=
  { findObject := fun _ mo => mo + 1,
    getWriteable := fun _ mo _ => (mo + 2, ()),
    address := fun mo => 16 * mo }

/-- A sample state: register object at 11, system-state object at 12, empty registry,
fresh cache. -/
def sampleState : S2EExecutionState Unit :=
  { addressSpace := (), m_stateID := 0, m_PluginState := PluginStateMap.empty,
    m_symbexEnabled := false, m_startSymbexAtPC := 0, m_active := true,
    m_runningConcrete := true, m_cpuRegistersState := 11, m_cpuSystemState := 12,
    m_memCache := S2EMemObjectCache.init 101, m_cpuRegistersObject := 21,
    m_cpuSystemObject := 22, m_deviceState := 31, m_timersState := 32 }

/-- A sample stand-in for the cache-backed read path. -/
def sampleFetchMem : S2EExecutionState.FetchObjectStateMem Unit :=
  fun s hostAddress _ => Except.ok (ObjectPair.mk hostAddress (hostAddress + 1), s.m_memCache)

/-- A sample stand-in for the cache-backed write path. -/
def sampleFetchMemWritable : S2EExecutionState.FetchObjectStateMemWritable Unit :=
  fun s mo _ => Except.ok (mo + 3, s)

/-- A sample factory: the plugin state of plugin `p` is at `p + 500`. -/
def sampleFactory : PluginStateFactory Unit := fun p _ => p + 500

/-- A sample factory that returns `NULL`. -/
def nullFactory : PluginStateFactory Unit := fun _ _ => 0

/-- A second sample factory: the plugin state of plugin `p` is at `p + 900`. -/
def otherFactory : PluginStateFactory Unit := fun p _ => p + 900

/-- The sample state after plugin 3 has obtained its plugin state 503. -/
def sampleStateWith3 : S2EExecutionState Unit :=
  { sampleState with m_PluginState := sampleState.m_PluginState.assign 3 503 }

/-- One mutating call on the cache: `update(address, p)` or `invalidate(address)`. -/
inductive CacheOp where
  | update (address : Nat) (p : ObjectPair)
  | invalidate (address : Nat)
  deriving DecidableEq, Repr

namespace CacheOp

/-- Running one call on a cache. -/
def apply {Size : Nat} (getObject : Nat → Nat) (c : S2EMemObjectCache Size) :
    CacheOp → Except Fault (S2EMemObjectCache Size)
  | CacheOp.update address p => c.update getObject address p
  | CacheOp.invalidate address => c.invalidate address

/-- A call whose pair, if it is an `update`, is consistent. -/
def admissible (getObject : Nat → Nat) : CacheOp → Prop
  | CacheOp.update _ p => p.consistent getObject
  | CacheOp.invalidate _ => True

instance (getObject : Nat → Nat) (op : CacheOp) : Decidable (op.admissible getObject) := by
  cases op <;> unfold admissible <;> infer_instance

/-- Whether a call ends the presence of address `A`: an `invalidate(A)`, or an `update` of
an address of the slot of `A`. -/
def disturbs (A : Nat) : CacheOp → Bool
  | CacheOp.update B _ => decide (B % 101 = A % 101)
  | CacheOp.invalidate B => decide (B = A)

end CacheOp

/-- What a call makes of the pair held for address `A`, `v` being the pair held before. -/
def CacheOp.effect (A : Nat) (v : ObjectPair) : CacheOp → ObjectPair
  | CacheOp.update B P =>
    if B = A then P else if B % 101 = A % 101 then ObjectPair.mk 0 0 else v
  | CacheOp.invalidate B => if B = A then ObjectPair.mk 0 0 else v

/-- The pair a cache holds for address `A`: the pair of slot `A % 101` when the address
stored there is `A`, the empty pair otherwise. -/
def storedPair (c : S2EMemObjectCache 101) (A : Nat) : ObjectPair :=
  if (c.m_entries ⟨A % 101, Nat.mod_lt A (by decide)⟩).address = A then
    (c.m_entries ⟨A % 101, Nat.mod_lt A (by decide)⟩).objPair
  else ObjectPair.mk 0 0

/-- Running a sequence of calls, first call first. -/
def runOps {Size : Nat} (getObject : Nat → Nat) :
    List CacheOp → S2EMemObjectCache Size → Except Fault (S2EMemObjectCache Size)
  | [], c => Except.ok c
  | op :: ops, c => andThen (op.apply getObject c) (runOps getObject ops)

/-- The slot-placement property: every entry is the empty entry of `CacheEntry()`, or holds
an address of its own slot together with a consistent pair. -/
def slotInvariant (getObject : Nat → Nat) (c : S2EMemObjectCache 101) : Prop :=
  ∀ i : Fin 101, c.m_entries i = CacheEntry.init ∨
    ((c.m_entries i).address % 101 = i.val ∧ (c.m_entries i).objPair.consistent getObject)

/-- The one-address-per-slot partial map described for `lookup`: the pair `P` of an
`update(A, P)` of the sequence that is followed by no `invalidate(A)` and by no `update` of
an address of the slot of `A`; the empty pair when there is no such call. -/
def specLookup : List CacheOp → Nat → ObjectPair
  | [], _ => ObjectPair.mk 0 0
  | CacheOp.update B P :: rest, A =>
    if B = A ∧ rest.all (fun op => !(op.disturbs A)) then P else specLookup rest A
  | CacheOp.invalidate _ :: rest, A => specLookup rest A

/-- A sequence of calls on the address that marks empty slots: an update of it with a
consistent pair, then its invalidate. -/
def markerOps : List CacheOp :=
  [CacheOp.update emptyAddress samplePairP, CacheOp.invalidate emptyAddress]

/-- A sample sequence of calls: two colliding updates, then an invalidate of the evicted
address. -/
def sampleOps : List CacheOp :=
  [CacheOp.update 5 samplePairP, CacheOp.update 106 samplePairQ, CacheOp.invalidate 5]

/-- The enumeration `S2EExecutionState::AddressType`. -/
inductive AddressType where
  | VirtualAddress
  | PhysicalAddress
  | HostAddress
  deriving DecidableEq, Repr

/-- The value `-1` converted to `uint64_t`. -/
def failAddress : Nat := ((-1 : Int) % 2 ^ 64).toNat

/-- The emulator, an external collaborator: its page-table walk from a virtual to a
physical address, the host location of a physical address (`none` where nothing is mapped),
and the size in bytes of the memory objects that tile host memory. -/
structure Emulator where
  virtToPhys : Nat → Option Nat
  physToHost : Nat → Option Nat
  objectSize : Nat

/-- Modelled from the spec: the member `getPhysicalAddress`, declared in the header and
defined out of line. It walks the page tables and gives the physical address, and on
failure the maximum address value, the `-1` of its declaration comment; the result is a
`uint64_t`. -/
def getPhysicalAddress (E : Emulator) (virtualAddress : Nat) : Nat :=
  match E.virtToPhys virtualAddress with
  | some physicalAddress => physicalAddress % 2 ^ 64
  | none => failAddress

/-- Modelled from the spec: the member `getHostAddress`, declared in the header and defined
out of line. A host address needs no translation, a physical address is located in host
memory, a virtual address is first translated to a physical one; failure of a step gives
the maximum address value; the result is a `uint64_t`. -/
def getHostAddress (E : Emulator) (address : Nat) (addressType : AddressType) : Nat :=
  match addressType with
  | AddressType.HostAddress => address
  | AddressType.PhysicalAddress =>
    match E.physToHost address with
    | some hostAddress => hostAddress % 2 ^ 64
    | none => failAddress
  | AddressType.VirtualAddress =>
    match E.virtToPhys address with
    | none => failAddress
    | some physicalAddress =>
      match E.physToHost physicalAddress with
      | some hostAddress => hostAddress % 2 ^ 64
      | none => failAddress

/-- Modelled from the spec: one byte of a snapshot, which is concrete or an expression
node. -/
inductive MemByte where
  | concrete (value : Nat)
  | symbolic (expr : Nat)
  deriving DecidableEq, Repr

/-- Modelled from the spec: the snapshots (object states) of the engine, which sibling
states may share. For a snapshot pointer: its bytes by offset, the memory object it belongs
to (`getObject()`), and whether it is shared by several states; `last` is the highest
snapshot pointer handed out so far. -/
structure SnapshotHeap where
  content : Nat → Nat → MemByte
  object : Nat → Nat
  shared : Nat → Bool
  last : Nat

/-- Modelled from the spec: the address space of the engine, mapping the address of a memory
object to the object and its current snapshot, `(NULL, NULL)` where nothing is mapped. -/
structure SpecAddressSpace where
  objects : Nat → ObjectPair

/-- The address of the memory object that holds host address `hostAddress`. -/
def objectBase (E : Emulator) (hostAddress : Nat) : Nat :=
  hostAddress - hostAddress % E.objectSize

/-- Modelled from the spec: the member `fetchObjectStateMem`, declared in the header and
defined out of line. It consults the memory object cache, and on a miss (the empty pair)
resolves the address in the address space and populates the cache. -/
def specFetchObjectStateMem (H : SnapshotHeap) :
    S2EExecutionState.FetchObjectStateMem SpecAddressSpace :=
  fun s hostAddress _ =>
    match s.m_memCache.lookup H.object hostAddress with
    | Except.error f => Except.error f
    | Except.ok op =>
      if op.first ≠ 0 then Except.ok (op, s.m_memCache)
      else if (s.addressSpace.objects hostAddress).first = 0 then
        Except.ok (s.addressSpace.objects hostAddress, s.m_memCache)
      else
        match s.m_memCache.update H.object hostAddress (s.addressSpace.objects hostAddress) with
        | Except.error f => Except.error f
        | Except.ok cache => Except.ok (s.addressSpace.objects hostAddress, cache)

/-- Modelled from the spec: the copy-on-write step behind `fetchObjectStateMemWritable`,
declared in the header and defined out of line. A snapshot that is shared is duplicated
before the write, the state is bound to its own copy, and the cache entry of the address is
invalidated at once; a snapshot that is not shared is written in place. The result is the
writable snapshot with the heap and the state after the step. -/
def specFetchObjectStateMemWritable (H : SnapshotHeap) (s : S2EExecutionState SpecAddressSpace)
    (objectAddress : Nat) (op : ObjectPair) :
    Except Fault (Nat × SnapshotHeap × S2EExecutionState SpecAddressSpace) :=
  if H.shared op.second = true then
    match s.m_memCache.invalidate objectAddress with
    | Except.error f => Except.error f
    | Except.ok cache =>
      Except.ok (H.last + 1,
        { content := Function.update H.content (H.last + 1) (H.content op.second),
          object := Function.update H.object (H.last + 1) op.first,
          shared := Function.update H.shared (H.last + 1) false,
          last := H.last + 1 },
        { s with
          addressSpace := SpecAddressSpace.mk (Function.update s.addressSpace.objects objectAddress (ObjectPair.mk op.first (H.last + 1))),
          m_memCache := cache })
  else Except.ok (op.second, H, s)

/-- Modelled from the spec: the write of one byte at a host address through the memory
access path: resolve the object through the cache, fail (`false`) where nothing is mapped,
otherwise obtain the writable snapshot and store the concrete byte. -/
def specWriteByte (E : Emulator) (H : SnapshotHeap) (s : S2EExecutionState SpecAddressSpace)
    (hostAddress : Nat) (b : Nat) :
    Except Fault (Bool × SnapshotHeap × S2EExecutionState SpecAddressSpace) :=
  match specFetchObjectStateMem H s (objectBase E hostAddress) 0 with
  | Except.error f => Except.error f
  | Except.ok (op, cache) =>
    if op.first = 0 then Except.ok (false, H, { s with m_memCache := cache })
    else
      match specFetchObjectStateMemWritable H { s with m_memCache := cache }
          (objectBase E hostAddress) op with
      | Except.error f => Except.error f
      | Except.ok (wos, H1, s1) =>
        Except.ok (true,
          { H1 with
            content := Function.update H1.content wos (Function.update (H1.content wos) (hostAddress % E.objectSize) (MemByte.concrete b)) },
          s1)

/-- Modelled from the spec: the read of one byte at a host address through the memory access
path: the byte of the current snapshot, `none` where nothing is mapped; the state comes back
with the cache as the read leaves it. -/
def specReadByte (E : Emulator) (H : SnapshotHeap) (s : S2EExecutionState SpecAddressSpace)
    (hostAddress : Nat) : Except Fault (Option MemByte × S2EExecutionState SpecAddressSpace) :=
  match specFetchObjectStateMem H s (objectBase E hostAddress) 0 with
  | Except.error f => Except.error f
  | Except.ok (op, cache) =>
    if op.first = 0 then Except.ok (none, { s with m_memCache := cache })
    else
      Except.ok (some (H.content op.second (hostAddress % E.objectSize)),
        { s with m_memCache := cache })

/-- Modelled from the spec: the member `writeMemoryConcrete`, declared in the header and
defined out of line; `buf` is the list of the `size` bytes to write. Each address is
translated to a host address, a failed translation or an unmapped byte fails the operation
with `false`, otherwise the bytes are stored one after the other. -/
def writeMemoryConcrete (E : Emulator) (addressType : AddressType) :
    SnapshotHeap → S2EExecutionState SpecAddressSpace → Nat → List Nat →
      Except Fault (Bool × SnapshotHeap × S2EExecutionState SpecAddressSpace)
  | H, s, _, [] => Except.ok (true, H, s)
  | H, s, address, b :: rest =>
    if getHostAddress E address addressType = failAddress then Except.ok (false, H, s)
    else
      match specWriteByte E H s (getHostAddress E address addressType) b with
      | Except.error f => Except.error f
      | Except.ok (false, H1, s1) => Except.ok (false, H1, s1)
      | Except.ok (true, H1, s1) =>
        writeMemoryConcrete E addressType H1 s1 ((address + 1) % 2 ^ 64) rest

/-- Modelled from the spec: the member `readMemoryConcrete`, declared in the header and
defined out of line. The result `some out` stands for `true` with the buffer filled with
`out`, `none` for `false`: a failed translation, an unmapped byte or a symbolic byte. -/
def readMemoryConcrete (E : Emulator) (H : SnapshotHeap) (addressType : AddressType) :
    S2EExecutionState SpecAddressSpace → Nat → Nat →
      Except Fault (Option (List Nat) × S2EExecutionState SpecAddressSpace)
  | s, _, 0 => Except.ok (some [], s)
  | s, address, size + 1 =>
    if getHostAddress E address addressType = failAddress then Except.ok (none, s)
    else
      match specReadByte E H s (getHostAddress E address addressType) with
      | Except.error f => Except.error f
      | Except.ok (some (MemByte.concrete v), s1) =>
        match readMemoryConcrete E H addressType s1 ((address + 1) % 2 ^ 64) size with
        | Except.error f => Except.error f
        | Except.ok (some out, s2) => Except.ok (some (v :: out), s2)
        | Except.ok (none, s2) => Except.ok (none, s2)
      | Except.ok (_, s1) => Except.ok (none, s1)

/-- The byte that a state holds at a host address according to its address space: the
byte of the current snapshot of the object at that address, `none` where nothing is
mapped. -/
def contentAt (E : Emulator) (H : SnapshotHeap) (s : S2EExecutionState SpecAddressSpace)
    (hostAddress : Nat) : Option MemByte :=
  if (s.addressSpace.objects (objectBase E hostAddress)).first = 0 then none
  else some (H.content (s.addressSpace.objects (objectBase E hostAddress)).second
    (hostAddress % E.objectSize))

/-- A state that fits a snapshot heap: every mapped object is bound to a non-null snapshot
of that object which the heap has handed out, distinct objects are bound to distinct
snapshots, and every cache entry is empty or holds, in the slot of its address, the pair
that the address space maps that address to. -/
def wellFormed (H : SnapshotHeap) (s : S2EExecutionState SpecAddressSpace) : Prop :=
  (∀ key : Nat, (s.addressSpace.objects key).first ≠ 0 →
    (s.addressSpace.objects key).consistent H.object ∧
    (s.addressSpace.objects key).second ≤ H.last) ∧
  (∀ k1 k2 : Nat, (s.addressSpace.objects k1).first ≠ 0 →
    (s.addressSpace.objects k2).first ≠ 0 →
    (s.addressSpace.objects k1).second = (s.addressSpace.objects k2).second → k1 = k2) ∧
  (∀ i : Fin 101, s.m_memCache.m_entries i = CacheEntry.init ∨
    ((s.m_memCache.m_entries i).address % 101 = i.val ∧
      (s.m_memCache.m_entries i).objPair
        = s.addressSpace.objects (s.m_memCache.m_entries i).address ∧
      (s.m_memCache.m_entries i).objPair.first ≠ 0))

/-- Every snapshot a state is bound to is marked as shared. -/
def boundToShared (H : SnapshotHeap) (s : S2EExecutionState SpecAddressSpace) : Prop :=
  ∀ key : Nat, (s.addressSpace.objects key).first ≠ 0 →
    H.shared (s.addressSpace.objects key).second = true

/-- The heap `H2` continues the heap `H1`: it has handed out at least the same snapshots,
and every snapshot handed out by `H1` has kept its object and its sharing mark, and its
bytes when it is shared. -/
def heapExtends (H1 H2 : SnapshotHeap) : Prop :=
  H1.last ≤ H2.last ∧
  ∀ p : Nat, p ≤ H1.last →
    H2.object p = H1.object p ∧ H2.shared p = H1.shared p ∧
    (H1.shared p = true → H2.content p = H1.content p)

/-- The host address of byte number `i` of the range that starts at `address`. -/
def hostOf (E : Emulator) (addressType : AddressType) (address i : Nat) : Nat :=
  getHostAddress E ((address + i) % 2 ^ 64) addressType

/-- A mapped address range of `size` bytes: every address of the range translates to a host
byte of a mapped memory object. -/
def mappedRange (E : Emulator) (s : S2EExecutionState SpecAddressSpace)
    (addressType : AddressType) (address size : Nat) : Prop :=
  ∀ i : Nat, i < size →
    hostOf E addressType address i ≠ failAddress ∧
    (s.addressSpace.objects (objectBase E (hostOf E addressType address i))).first ≠ 0

/-- An all-concrete address range: every byte of the range that the state holds is
concrete. -/
def concreteRange (E : Emulator) (H : SnapshotHeap) (s : S2EExecutionState SpecAddressSpace)
    (addressType : AddressType) (address size : Nat) : Prop :=
  ∀ i : Nat, i < size → ∀ e : Nat,
    contentAt E H s (hostOf E addressType address i) ≠ some (MemByte.symbolic e)

/-- A range without aliasing: its `size` addresses translate to `size` distinct host
bytes. -/
def distinctHostBytes (E : Emulator) (addressType : AddressType) (address size : Nat) : Prop :=
  ∀ i : Nat, i < size → ∀ j : Nat, j < size →
    hostOf E addressType address i = hostOf E addressType address j → i = j

/-- What a fork produces: the heap after the fork, the new state, and the new value of the
static counter `s_lastStateID`. -/
structure CloneResult where
  heap : SnapshotHeap
  child : S2EExecutionState SpecAddressSpace
  lastStateID : Int

/-- Modelled from the spec: the member `clone`, declared in the header and defined out of
line. The fork gives the new state a fresh ID, a reset (empty) memory object cache and its
own copies of the device state and of the timer snapshot, and shares the memory snapshots
copy on write with the parent: the new state has the bindings of the parent and every
snapshot becomes shared. The arguments `deviceCopy` and `timersCopy` are the pointers of
the two copies. The plugin state registry, whose duplication the specification leaves open,
is carried over as it is. -/
def specClone (H : SnapshotHeap) (s : S2EExecutionState SpecAddressSpace) (s_lastStateID : Int)
    (deviceCopy timersCopy : Nat) : CloneResult :=
  { heap := { H with shared := fun _ => true },
    child :=
      { s with
        m_stateID := s_lastStateID + 1,
        m_memCache := S2EMemObjectCache.init 101,
        m_deviceState := deviceCopy,
        m_timersState := timersCopy },
    lastStateID := s_lastStateID + 1 }

/-- A sample emulator: virtual pages 1 and 2 lie at physical pages 2 and 3, physical address
`p` lies at host address `p + 65536`, memory objects have 4096 bytes. -/
def sampleEmulator : Emulator :=
  { virtToPhys := fun v => if v / 4096 = 1 ∨ v / 4096 = 2 then some (4096 + v) else none,
    physToHost := fun p => some (p + 65536),
    objectSize := 4096 }

/-- An emulator with two-byte pages and objects in which the virtual pages 3 and 4 both lie
at physical page 5; physical address `p` lies at host address `p + 65536`. -/
def aliasEmulator : Emulator :=
  { virtToPhys := fun v => if v / 2 = 3 ∨ v / 2 = 4 then some (10 + v % 2) else none,
    physToHost := fun p => some (p + 65536),
    objectSize := 2 }

/-- A sample snapshot heap: snapshot 1 of object 100 and snapshot 2 of object 101, all
bytes zero, nothing shared. -/
def sampleHeap : SnapshotHeap :=
  { content := fun _ _ => MemByte.concrete 0,
    object := fun p => if p = 1 then 100 else if p = 2 then 101 else 0,
    shared := fun _ => false,
    last := 2 }

/-- A state for the emulator with aliased pages: object 100 at host address 65546, fresh
cache. -/
def aliasMemState : S2EExecutionState SpecAddressSpace :=
  { addressSpace := SpecAddressSpace.mk (fun key => if key = 65546 then ObjectPair.mk 100 1 else ObjectPair.mk 0 0),
    m_stateID := 0, m_PluginState := PluginStateMap.empty,
    m_symbexEnabled := false, m_startSymbexAtPC := 0, m_active := true,
    m_runningConcrete := true, m_cpuRegistersState := 11, m_cpuSystemState := 12,
    m_memCache := S2EMemObjectCache.init 101, m_cpuRegistersObject := 21,
    m_cpuSystemObject := 22, m_deviceState := 31, m_timersState := 32 }

/-- A sample state for memory accesses: object 100 at host address 73728 and object 101 at
host address 77824, fresh cache. -/
def sampleMemState : S2EExecutionState SpecAddressSpace :=
  { addressSpace := SpecAddressSpace.mk (fun key => if key = 73728 then ObjectPair.mk 100 1 else if key = 77824 then ObjectPair.mk 101 2 else ObjectPair.mk 0 0),
    m_stateID := 0, m_PluginState := PluginStateMap.empty,
    m_symbexEnabled := false, m_startSymbexAtPC := 0, m_active := true,
    m_runningConcrete := true, m_cpuRegistersState := 11, m_cpuSystemState := 12,
    m_memCache := S2EMemObjectCache.init 101, m_cpuRegistersObject := 21,
    m_cpuSystemObject := 22, m_deviceState := 31, m_timersState := 32 }

/-! Theorems -/

open S2EMemObjectCache

theorem slot_101 (A : Nat) : slot 101 A = A % 101 := by
  unfold slot S2EMemObjectCache.hash
  omega

theorem slot_101_lt (A : Nat) : slot 101 A < 101 := by
  rw [slot_101]
  omega

theorem assertSameObject_of_consistent {getObject : Nat → Nat} {p : ObjectPair}
    (hp : p.consistent getObject) : assertSameObject getObject p = Except.ok () := by
  obtain ⟨_, h2, h3⟩ := hp
  simp [assertSameObject, h2, h3]

theorem assertNonNull_of_consistent {getObject : Nat → Nat} {p : ObjectPair}
    (hp : p.consistent getObject) : assertNonNull p = Except.ok () := by
  obtain ⟨h1, h2, _⟩ := hp
  simp [assertNonNull, h1, h2]

theorem fin_eq_slot {A : Nat} {i : Fin 101} (hi : i.val = A % 101) :
    i = ⟨slot 101 A, slot_101_lt A⟩ := by
  apply Fin.ext
  simp only [slot_101, hi]

/-- With a consistent pair, `update` succeeds and stores `(A, P)` in slot `A % 101`. -/
theorem update_eq (getObject : Nat → Nat) (c : S2EMemObjectCache 101) (A : Nat) (P : ObjectPair)
    (hP : P.consistent getObject) (i : Fin 101) (hi : i.val = A % 101) :
    c.update getObject A P = Except.ok
      { c with m_entries := Function.update c.m_entries i (CacheEntry.mk A P) } := by
  have hi2 := fin_eq_slot hi
  subst hi2
  unfold update
  simp only [slot_101_lt, dite_true, Function.update_same]
  rw [assertSameObject_of_consistent hP, assertNonNull_of_consistent hP]

/-- The member `lookup` on a table of 101 entries, in terms of the entry of its slot. -/
theorem lookup_eq (getObject : Nat → Nat) (c : S2EMemObjectCache 101) (A : Nat)
    (i : Fin 101) (hi : i.val = A % 101) :
    c.lookup getObject A =
      if A = (c.m_entries i).address then
        match assertSameObject getObject (c.m_entries i).objPair with
        | Except.error f => Except.error f
        | Except.ok _ => Except.ok (c.m_entries i).objPair
      else Except.ok (ObjectPair.mk 0 0) := by
  have hi2 := fin_eq_slot hi
  subst hi2
  unfold lookup
  simp only [slot_101_lt, dite_true]

/-- The member `invalidate` on a table of 101 entries, in terms of the entry of its slot. -/
theorem invalidate_eq (c : S2EMemObjectCache 101) (A : Nat) (i : Fin 101) (hi : i.val = A % 101) :
    c.invalidate A =
      if (c.m_entries i).address = A then
        Except.ok { c with m_entries := Function.update c.m_entries i CacheEntry.init }
      else Except.ok c := by
  have hi2 := fin_eq_slot hi
  subst hi2
  unfold invalidate
  simp only [slot_101_lt, dite_true]

/-- Claim C1: for every cache state, every address A and every consistent pair P,
update(A, P) followed immediately by lookup(A) returns exactly P. -/
theorem C1_update_then_lookup (getObject : Nat → Nat) (c : S2EMemObjectCache 101) (A : Nat)
    (P : ObjectPair) (hP : P.consistent getObject) :
    andThen (c.update getObject A P) (fun c1 => c1.lookup getObject A) = Except.ok P := by
  have hlt : A % 101 < 101 := Nat.mod_lt A (by decide)
  rw [update_eq getObject c A P hP ⟨A % 101, hlt⟩ rfl]
  simp only [andThen]
  rw [lookup_eq getObject _ A ⟨A % 101, hlt⟩ rfl]
  simp only [Function.update_same, if_true]
  rw [assertSameObject_of_consistent hP]

theorem C1_update_then_lookup_witness :
    samplePairP.consistent sampleGetObject ∧
    andThen ((init 101).update sampleGetObject 4242 samplePairP)
      (fun c1 => c1.lookup sampleGetObject 4242) = Except.ok samplePairP :=
  ⟨by decide, C1_update_then_lookup sampleGetObject (init 101) 4242 samplePairP (by decide)⟩

/-- Claim C2: for addresses A and B of the same slot with A different from B and consistent
pairs P and Q, after update(A, P); update(B, Q) the lookup of A returns the empty pair
(NULL, NULL) and the lookup of B returns Q. -/
theorem C2_collision_evicts (getObject : Nat → Nat) (c : S2EMemObjectCache 101) (A B : Nat)
    (P Q : ObjectPair) (hmod : A % 101 = B % 101) (hne : A ≠ B)
    (hP : P.consistent getObject) (hQ : Q.consistent getObject) :
    andThen (c.update getObject A P) (fun c1 =>
      andThen (c1.update getObject B Q) (fun c2 => c2.lookup getObject A))
        = Except.ok (ObjectPair.mk 0 0) ∧
    andThen (c.update getObject A P) (fun c1 =>
      andThen (c1.update getObject B Q) (fun c2 => c2.lookup getObject B))
        = Except.ok Q := by
  have hlt : A % 101 < 101 := Nat.mod_lt A (by decide)
  rw [update_eq getObject c A P hP ⟨A % 101, hlt⟩ rfl]
  simp only [andThen]
  rw [update_eq getObject _ B Q hQ ⟨A % 101, hlt⟩ hmod]
  simp only []
  rw [lookup_eq getObject _ A ⟨A % 101, hlt⟩ rfl, lookup_eq getObject _ B ⟨A % 101, hlt⟩ hmod]
  simp only [Function.update_same, if_true, if_neg hne]
  rw [assertSameObject_of_consistent hQ]
  exact ⟨trivial, rfl⟩

theorem C2_collision_evicts_witness :
    5 % 101 = 106 % 101 ∧ 5 ≠ 106 ∧ samplePairP.consistent sampleGetObject ∧
    samplePairQ.consistent sampleGetObject ∧
    andThen ((init 101).update sampleGetObject 5 samplePairP) (fun c1 =>
      andThen (c1.update sampleGetObject 106 samplePairQ) (fun c2 => c2.lookup sampleGetObject 5))
        = Except.ok (ObjectPair.mk 0 0) ∧
    andThen ((init 101).update sampleGetObject 5 samplePairP) (fun c1 =>
      andThen (c1.update sampleGetObject 106 samplePairQ) (fun c2 => c2.lookup sampleGetObject 106))
        = Except.ok samplePairQ :=
  ⟨by decide, by decide, by decide, by decide,
    C2_collision_evicts sampleGetObject (init 101) 5 106 samplePairP samplePairQ
      (by decide) (by decide) (by decide) (by decide)⟩

/-- Claim C3: for addresses A and B of the same slot with A different from B and a
consistent pair P, after update(A, P); invalidate(B) the lookup of A still returns P. -/
theorem C3_invalidate_is_address_exact (getObject : Nat → Nat) (c : S2EMemObjectCache 101)
    (A B : Nat) (P : ObjectPair) (hmod : A % 101 = B % 101) (hne : A ≠ B)
    (hP : P.consistent getObject) :
    andThen (c.update getObject A P) (fun c1 =>
      andThen (c1.invalidate B) (fun c2 => c2.lookup getObject A)) = Except.ok P := by
  have hlt : A % 101 < 101 := Nat.mod_lt A (by decide)
  rw [update_eq getObject c A P hP ⟨A % 101, hlt⟩ rfl]
  simp only [andThen]
  rw [invalidate_eq _ B ⟨A % 101, hlt⟩ hmod]
  simp only [Function.update_same, if_neg hne]
  rw [lookup_eq getObject _ A ⟨A % 101, hlt⟩ rfl]
  simp only [Function.update_same, if_true]
  rw [assertSameObject_of_consistent hP]

theorem C3_invalidate_is_address_exact_witness :
    5 % 101 = 106 % 101 ∧ 5 ≠ 106 ∧ samplePairP.consistent sampleGetObject ∧
    andThen ((init 101).update sampleGetObject 5 samplePairP) (fun c1 =>
      andThen (c1.invalidate 106) (fun c2 => c2.lookup sampleGetObject 5))
        = Except.ok samplePairP :=
  ⟨by decide, by decide, by decide,
    C3_invalidate_is_address_exact sampleGetObject (init 101) 5 106 samplePairP
      (by decide) (by decide) (by decide)⟩

/-- After `invalidate(A)` a `lookup(A)` returns the empty pair, for every address other
than the one that marks empty slots. -/
theorem invalidate_then_lookup_of_ne_marker (getObject : Nat → Nat) (c : S2EMemObjectCache 101)
    (A : Nat) (hA : A ≠ emptyAddress) :
    andThen (c.invalidate A) (fun c1 => c1.lookup getObject A) = Except.ok (ObjectPair.mk 0 0) := by
  have hlt : A % 101 < 101 := Nat.mod_lt A (by decide)
  rw [invalidate_eq c A ⟨A % 101, hlt⟩ rfl]
  by_cases h : (c.m_entries ⟨A % 101, hlt⟩).address = A
  · simp only [if_pos h, andThen]
    rw [lookup_eq getObject _ A ⟨A % 101, hlt⟩ rfl]
    simp only [Function.update_same]
    have h2 : A ≠ CacheEntry.init.address := hA
    rw [if_neg h2]
  · simp only [if_neg h, andThen]
    rw [lookup_eq getObject _ A ⟨A % 101, hlt⟩ rfl]
    have h2 : ¬ A = (c.m_entries ⟨A % 101, hlt⟩).address := fun e => h e.symm
    rw [if_neg h2]

/-- On the fresh cache `lookup(A)` returns the empty pair, for every address other than
the one that marks empty slots. -/
theorem lookup_init_of_ne_marker (getObject : Nat → Nat) (A : Nat) (hA : A ≠ emptyAddress) :
    (init 101).lookup getObject A = Except.ok (ObjectPair.mk 0 0) := by
  have hlt : A % 101 < 101 := Nat.mod_lt A (by decide)
  rw [lookup_eq getObject _ A ⟨A % 101, hlt⟩ rfl]
  have h2 : ¬ A = ((init 101).m_entries ⟨A % 101, hlt⟩).address := hA
  rw [if_neg h2]

/-- Claim C4, evaluated where it fails: on the fresh cache, `invalidate` of the address that
marks empty slots followed by `lookup` of that address does not return the empty pair; the
lookup takes the hit branch and its assertion dereferences the null snapshot. -/
theorem C4_invalidate_then_lookup_at_marker (getObject : Nat → Nat) :
    andThen ((init 101).invalidate emptyAddress) (fun c1 => c1.lookup getObject emptyAddress)
      = Except.error Fault.nullDereference := by
  rfl

/-- Claim C5, evaluated where it fails: on the fresh cache, `lookup` of the address that marks
empty slots does not return the empty pair; it takes the hit branch and its assertion
dereferences the null snapshot. -/
theorem C5_lookup_fresh_at_marker (getObject : Nat → Nat) :
    (init 101).lookup getObject emptyAddress = Except.error Fault.nullDereference := by
  rfl

/-- Claim C8: when slot B mod 101 does not store address B, `invalidate(B)` succeeds and
leaves the cache, hence each of its 101 entries, exactly as it was. -/
theorem C8_invalidate_mismatch_is_noop (c : S2EMemObjectCache 101) (B : Nat)
    (hB : (c.m_entries ⟨B % 101, Nat.mod_lt B (by decide)⟩).address ≠ B) :
    c.invalidate B = Except.ok c := by
  rw [invalidate_eq c B ⟨B % 101, Nat.mod_lt B (by decide)⟩ rfl, if_neg hB]

theorem C8_invalidate_mismatch_is_noop_witness :
    (sampleCache.m_entries ⟨106 % 101, Nat.mod_lt 106 (by decide)⟩).address ≠ 106 ∧
    sampleCache.invalidate 106 = Except.ok sampleCache :=
  ⟨by decide, C8_invalidate_mismatch_is_noop sampleCache 106 (by decide)⟩

/-- Claim C9: `update(A, P)` with a consistent pair succeeds, stores `(A, P)` in slot
A mod 101 whatever that slot held, leaves every other entry unchanged, and so leaves
`lookup(B)` unchanged for every B of another slot; `invalidate(A)` succeeds and leaves every
entry other than slot A mod 101 unchanged. -/
theorem C9_update_invalidate_frame (getObject : Nat → Nat) (c : S2EMemObjectCache 101) (A : Nat)
    (P : ObjectPair) (hP : P.consistent getObject) :
    (∃ c1, c.update getObject A P = Except.ok c1 ∧
      c1.entryAt (A % 101) = some (CacheEntry.mk A P) ∧
      (∀ i : Fin 101, i.val ≠ A % 101 → c1.m_entries i = c.m_entries i) ∧
      (∀ B : Nat, B % 101 ≠ A % 101 → c1.lookup getObject B = c.lookup getObject B)) ∧
    (∃ c2, c.invalidate A = Except.ok c2 ∧
      (∀ i : Fin 101, i.val ≠ A % 101 → c2.m_entries i = c.m_entries i)) := by
  have hlt : A % 101 < 101 := Nat.mod_lt A (by decide)
  have hframe : ∀ (e : CacheEntry) (i : Fin 101), i.val ≠ A % 101 →
      Function.update c.m_entries ⟨A % 101, hlt⟩ e i = c.m_entries i := by
    intro e i hi
    apply Function.update_noteq
    intro h
    exact hi (congrArg Fin.val h)
  constructor
  · refine ⟨_, update_eq getObject c A P hP ⟨A % 101, hlt⟩ rfl, ?_, ?_, ?_⟩
    · simp only [entryAt, hlt, dite_true, Function.update_same]
    · exact hframe _
    · intro B hB
      have hltB : B % 101 < 101 := Nat.mod_lt B (by decide)
      rw [lookup_eq getObject _ B ⟨B % 101, hltB⟩ rfl, lookup_eq getObject c B ⟨B % 101, hltB⟩ rfl]
      simp only [hframe _ ⟨B % 101, hltB⟩ hB]
  · rw [invalidate_eq c A ⟨A % 101, hlt⟩ rfl]
    by_cases h : (c.m_entries ⟨A % 101, hlt⟩).address = A
    · rw [if_pos h]
      exact ⟨_, rfl, hframe _⟩
    · rw [if_neg h]
      exact ⟨_, rfl, fun _ _ => rfl⟩

theorem C9_update_invalidate_frame_witness :
    samplePairQ.consistent sampleGetObject ∧
    ((∃ c1, sampleCache.update sampleGetObject 106 samplePairQ = Except.ok c1 ∧
      c1.entryAt (106 % 101) = some (CacheEntry.mk 106 samplePairQ) ∧
      (∀ i : Fin 101, i.val ≠ 106 % 101 → c1.m_entries i = sampleCache.m_entries i) ∧
      (∀ B : Nat, B % 101 ≠ 106 % 101 →
        c1.lookup sampleGetObject B = sampleCache.lookup sampleGetObject B)) ∧
    (∃ c2, sampleCache.invalidate 106 = Except.ok c2 ∧
      (∀ i : Fin 101, i.val ≠ 106 % 101 → c2.m_entries i = sampleCache.m_entries i))) :=
  ⟨by decide, C9_update_invalidate_frame sampleGetObject sampleCache 106 samplePairQ (by decide)⟩

open S2EExecutionState

theorem findIn_assignIn_self (l : List (Nat × Nat)) (k v : Nat) :
    PluginStateMap.findIn (PluginStateMap.assignIn l k v) k = some v := by
  induction l with
  | nil => simp [PluginStateMap.assignIn, PluginStateMap.findIn]
  | cons hd tl ih =>
    obtain ⟨k1, v1⟩ := hd
    unfold PluginStateMap.assignIn
    by_cases h1 : k < k1
    · simp [h1, PluginStateMap.findIn]
    · by_cases h2 : k = k1
      · simp [h1, h2, PluginStateMap.findIn]
      · have h3 : ¬ k1 = k := fun e => h2 e.symm
        simp [h1, h2, h3, PluginStateMap.findIn, ih]

theorem findIn_assignIn_of_ne (l : List (Nat × Nat)) (k v q : Nat) (hq : k ≠ q) :
    PluginStateMap.findIn (PluginStateMap.assignIn l k v) q = PluginStateMap.findIn l q := by
  induction l with
  | nil => simp [PluginStateMap.assignIn, PluginStateMap.findIn, hq]
  | cons hd tl ih =>
    obtain ⟨k1, v1⟩ := hd
    unfold PluginStateMap.assignIn
    by_cases h1 : k < k1
    · simp [h1, PluginStateMap.findIn, hq]
    · by_cases h2 : k = k1
      · have h3 : ¬ k1 = q := fun e => hq (h2.trans e)
        simp [h1, h2, h3, PluginStateMap.findIn]
      · simp [h1, h2, PluginStateMap.findIn, ih]

theorem find_assign_self (m : PluginStateMap) (k v : Nat) : (m.assign k v).find k = some v :=
  findIn_assignIn_self m.entries k v

theorem find_assign_of_ne (m : PluginStateMap) (k v q : Nat) (hq : k ≠ q) :
    (m.assign k v).find q = m.find q :=
  findIn_assignIn_of_ne m.entries k v q hq

/-- A first request: the factory runs once on `(plugin, s)` and its value is stored. -/
theorem getPluginState_of_absent {AS : Type} (s : S2EExecutionState AS) (p : Nat)
    (f : PluginStateFactory AS) (hnew : s.m_PluginState.find p = none) (hf : f p s ≠ 0) :
    getPluginState s p f = Except.ok
      { ret := f p s,
        state := { s with m_PluginState := s.m_PluginState.assign p (f p s) },
        invoked := [(p, s)] } := by
  unfold getPluginState
  rw [hnew]
  simp only [if_neg hf]

/-- A later request: the stored instance is returned and no factory runs. -/
theorem getPluginState_of_present {AS : Type} (s : S2EExecutionState AS) (p x : Nat)
    (f : PluginStateFactory AS) (hx : s.m_PluginState.find p = some x) :
    getPluginState s p f = Except.ok { ret := x, state := s, invoked := [] } := by
  unfold getPluginState
  rw [hx]

theorem getPluginStateSeq_of_present {AS : Type} (s : S2EExecutionState AS) (p x : Nat)
    (fs : List (PluginStateFactory AS)) (hx : s.m_PluginState.find p = some x) :
    getPluginStateSeq s p fs = Except.ok (fs.map (fun _ => (x, [])), s) := by
  induction fs with
  | nil => rfl
  | cons g gs ih =>
    unfold getPluginStateSeq
    rw [getPluginState_of_present s p x g hx]
    simp only [ih, List.map_cons]

/-- Claim C6: on a state where plugin p has not been requested yet, any number of successive
calls getPluginState(p, f), getPluginState(p, g1), ... all succeed; the first call invokes
its factory exactly once, with (p, the state), no later call invokes any factory, and every
call returns the instance made by that one invocation. -/
theorem C6_plugin_state_memoized {AS : Type} (s : S2EExecutionState AS) (p : Nat)
    (f : PluginStateFactory AS) (fs : List (PluginStateFactory AS))
    (hnew : s.m_PluginState.find p = none)
    (hf : ∀ g ∈ f :: fs, ∀ (q : Nat) (t : S2EExecutionState AS), g q t ≠ 0) :
    getPluginStateSeq s p (f :: fs) = Except.ok
      ((f p s, [(p, s)]) :: fs.map (fun _ => (f p s, [])),
        { s with m_PluginState := s.m_PluginState.assign p (f p s) }) := by
  have hf0 : f p s ≠ 0 := hf f (List.mem_cons_self f fs) p s
  unfold getPluginStateSeq
  rw [getPluginState_of_absent s p f hnew hf0]
  simp only []
  rw [getPluginStateSeq_of_present _ p (f p s) fs (find_assign_self _ _ _)]

theorem C6_plugin_state_memoized_witness :
    sampleState.m_PluginState.find 3 = none ∧
    (∀ g ∈ [sampleFactory, otherFactory, otherFactory],
      ∀ (q : Nat) (t : S2EExecutionState Unit), g q t ≠ 0) ∧
    getPluginStateSeq sampleState 3 [sampleFactory, otherFactory, otherFactory] = Except.ok
      ((503, [(3, sampleState)]) :: [(503, []), (503, [])], sampleStateWith3) := by
  have hf : ∀ g ∈ [sampleFactory, otherFactory, otherFactory],
      ∀ (q : Nat) (t : S2EExecutionState Unit), g q t ≠ 0 := by
    intro g hg q t
    simp only [List.mem_cons, List.mem_singleton, List.not_mem_nil, or_false] at hg
    rcases hg with h | h | h <;> subst h <;> simp [sampleFactory, otherFactory]
  exact ⟨by decide, hf,
    C6_plugin_state_memoized sampleState 3 sampleFactory [otherFactory, otherFactory]
      (by decide) hf⟩

/-- Claim C7: for the CPU-registers object or the CPU-system-state object (special),
fetchObjectState returns exactly addressSpace.findObject(mo) and fetchObjectStateWritable
returns exactly addressSpace.getWriteable(mo, os), whatever the cache-backed paths would do
and whatever the cache holds, and the cache is left as it was; for every other (non-null)
object both members hand over to the cache-backed path, the read being keyed by
mo->address. -/
theorem C7_special_objects_bypass_cache {AS : Type} (K : Klee AS) (s : S2EExecutionState AS)
    (special other tpm os : Nat)
    (hspecial : special = s.m_cpuRegistersState ∨ special = s.m_cpuSystemState)
    (hother : ¬ (other = s.m_cpuRegistersState ∨ other = s.m_cpuSystemState))
    (hnonnull : other ≠ 0) :
    (∀ (mem : FetchObjectStateMem AS) (cache : S2EMemObjectCache 101),
      fetchObjectState K mem { s with m_memCache := cache } special tpm =
        Except.ok (K.findObject s.addressSpace special, { s with m_memCache := cache })) ∧
    (∀ (memW : FetchObjectStateMemWritable AS) (cache : S2EMemObjectCache 101),
      fetchObjectStateWritable K memW { s with m_memCache := cache } special os =
        Except.ok ((K.getWriteable s.addressSpace special os).1,
          { s with addressSpace := (K.getWriteable s.addressSpace special os).2,
                   m_memCache := cache })) ∧
    (∀ (mem : FetchObjectStateMem AS),
      fetchObjectState K mem s other tpm =
        andThen (mem s (K.address other) tpm)
          (fun r => Except.ok (r.1.second, { s with m_memCache := r.2 }))) ∧
    (∀ (memW : FetchObjectStateMemWritable AS),
      fetchObjectStateWritable K memW s other os = memW s other os) := by
  refine ⟨?_, ?_, ?_, ?_⟩
  · intro mem cache
    unfold fetchObjectState
    rw [if_pos hspecial]
  · intro memW cache
    unfold fetchObjectStateWritable
    rw [if_pos hspecial]
  · intro mem
    unfold fetchObjectState
    rw [if_neg hother, if_neg hnonnull]
    unfold andThen
    cases mem s (K.address other) tpm with
    | error e => rfl
    | ok r => rfl
  · intro memW
    unfold fetchObjectStateWritable
    rw [if_neg hother]

theorem C7_special_objects_bypass_cache_witness :
    (11 = sampleState.m_cpuRegistersState ∨ 11 = sampleState.m_cpuSystemState) ∧
    ¬ (40 = sampleState.m_cpuRegistersState ∨ 40 = sampleState.m_cpuSystemState) ∧
    40 ≠ 0 ∧
    fetchObjectState sampleKlee sampleFetchMem sampleState 11 0 = Except.ok (12, sampleState) ∧
    fetchObjectStateWritable sampleKlee sampleFetchMemWritable sampleState 11 21
      = Except.ok (13, sampleState) ∧
    fetchObjectState sampleKlee sampleFetchMem sampleState 40 0 = Except.ok (641, sampleState) ∧
    fetchObjectStateWritable sampleKlee sampleFetchMemWritable sampleState 40 41
      = Except.ok (43, sampleState) :=
  have h := C7_special_objects_bypass_cache sampleKlee sampleState 11 40 0 21
    (by decide) (by decide) (by decide)
  have h2 := C7_special_objects_bypass_cache sampleKlee sampleState 11 40 0 41
    (by decide) (by decide) (by decide)
  ⟨by decide, by decide, by decide,
    h.1 sampleFetchMem sampleState.m_memCache,
    h.2.1 sampleFetchMemWritable sampleState.m_memCache,
    h.2.2.1 sampleFetchMem,
    h2.2.2.2 sampleFetchMemWritable⟩

/-- Claim C10: for distinct plugins p and q, a call getPluginState(p, f) that does not abort
succeeds and leaves the registry entry of q as it was: if q had no entry it has none
afterwards and the first request of q then invokes the factory of q, and if q had instance x
a later getPluginState(q, g) returns x without invoking g. -/
theorem C10_plugin_state_keyed_by_plugin {AS : Type} (s : S2EExecutionState AS) (p q : Nat)
    (f : PluginStateFactory AS) (hpq : p ≠ q)
    (hf : s.m_PluginState.find p = none → f p s ≠ 0) :
    ∃ r, getPluginState s p f = Except.ok r ∧
      r.state.m_PluginState.find q = s.m_PluginState.find q ∧
      (s.m_PluginState.find q = none →
        ∀ g : PluginStateFactory AS, g q r.state ≠ 0 →
          ∃ r2, getPluginState r.state q g = Except.ok r2 ∧
            r2.ret = g q r.state ∧ r2.invoked = [(q, r.state)]) ∧
      (∀ x : Nat, s.m_PluginState.find q = some x →
        ∀ g : PluginStateFactory AS,
          ∃ r2, getPluginState r.state q g = Except.ok r2 ∧ r2.ret = x ∧ r2.invoked = []) := by
  have key : ∃ r, getPluginState s p f = Except.ok r ∧
      r.state.m_PluginState.find q = s.m_PluginState.find q := by
    cases hp : s.m_PluginState.find p with
    | none =>
      exact ⟨_, getPluginState_of_absent s p f hp (hf hp), find_assign_of_ne _ p _ q hpq⟩
    | some x => exact ⟨_, getPluginState_of_present s p x f hp, rfl⟩
  obtain ⟨r, hr, hq⟩ := key
  refine ⟨r, hr, hq, ?_, ?_⟩
  · intro hnone g hg
    exact ⟨_, getPluginState_of_absent r.state q g (hq.trans hnone) hg, rfl, rfl⟩
  · intro x hx g
    exact ⟨_, getPluginState_of_present r.state q x g (hq.trans hx), rfl, rfl⟩

theorem C10_plugin_state_keyed_by_plugin_witness :
    (4 : Nat) ≠ 3 ∧
    (sampleStateWith3.m_PluginState.find 4 = none → sampleFactory 4 sampleStateWith3 ≠ 0) ∧
    ∃ r, getPluginState sampleStateWith3 4 sampleFactory = Except.ok r ∧
      r.state.m_PluginState.find 3 = sampleStateWith3.m_PluginState.find 3 ∧
      (sampleStateWith3.m_PluginState.find 3 = none →
        ∀ g : PluginStateFactory Unit, g 3 r.state ≠ 0 →
          ∃ r2, getPluginState r.state 3 g = Except.ok r2 ∧
            r2.ret = g 3 r.state ∧ r2.invoked = [(3, r.state)]) ∧
      (∀ x : Nat, sampleStateWith3.m_PluginState.find 3 = some x →
        ∀ g : PluginStateFactory Unit,
          ∃ r2, getPluginState r.state 3 g = Except.ok r2 ∧ r2.ret = x ∧ r2.invoked = []) :=
  ⟨by decide, fun _ => by decide,
    C10_plugin_state_keyed_by_plugin sampleStateWith3 4 3 sampleFactory (by decide)
      (fun _ => by decide)⟩

/-- The slot computed for any address is inside the table. -/
theorem slot_in_range (A : Nat) : slot 101 A < 101 := slot_101_lt A

theorem slotInvariant_init (getObject : Nat → Nat) : slotInvariant getObject (init 101) :=
  fun _ => Or.inl rfl

/-- An admissible call succeeds on a cache with the slot-placement property and keeps it. -/
theorem apply_preserves_slotInvariant (getObject : Nat → Nat) (c : S2EMemObjectCache 101)
    (op : CacheOp) (hc : slotInvariant getObject c) (hop : op.admissible getObject) :
    ∃ c1, op.apply getObject c = Except.ok c1 ∧ slotInvariant getObject c1 := by
  cases op with
  | update A P =>
    have hlt : A % 101 < 101 := Nat.mod_lt A (by decide)
    refine ⟨_, update_eq getObject c A P hop ⟨A % 101, hlt⟩ rfl, ?_⟩
    intro i
    by_cases hi : i = ⟨A % 101, hlt⟩
    · subst hi
      right
      simp only [Function.update_same]
      exact ⟨trivial, hop⟩
    · simp only [Function.update_noteq hi]
      exact hc i
  | invalidate A =>
    have hlt : A % 101 < 101 := Nat.mod_lt A (by decide)
    simp only [CacheOp.apply]
    rw [invalidate_eq c A ⟨A % 101, hlt⟩ rfl]
    by_cases h : (c.m_entries ⟨A % 101, hlt⟩).address = A
    · rw [if_pos h]
      refine ⟨_, rfl, ?_⟩
      intro i
      by_cases hi : i = ⟨A % 101, hlt⟩
      · subst hi
        left
        simp only [Function.update_same]
      · simp only [Function.update_noteq hi]
        exact hc i
    · rw [if_neg h]
      exact ⟨c, rfl, hc⟩

/-- A sequence of admissible calls runs to completion from a cache with the slot-placement
property, and the property holds at the end. -/
theorem runOps_preserves_slotInvariant (getObject : Nat → Nat) (ops : List CacheOp) :
    ∀ c : S2EMemObjectCache 101, slotInvariant getObject c →
      (∀ op ∈ ops, op.admissible getObject) →
      ∃ c1, runOps getObject ops c = Except.ok c1 ∧ slotInvariant getObject c1 := by
  induction ops with
  | nil => exact fun c hc _ => ⟨c, rfl, hc⟩
  | cons op rest ih =>
    intro c hc hops
    obtain ⟨c1, h1, hc1⟩ :=
      apply_preserves_slotInvariant getObject c op hc (hops op (List.mem_cons_self op rest))
    obtain ⟨c2, h2, hc2⟩ := ih c1 hc1 (fun o ho => hops o (List.mem_cons_of_mem op ho))
    refine ⟨c2, ?_, hc2⟩
    unfold runOps
    rw [h1]
    exact h2

/-- No `lookup` on a table of 101 entries indexes outside the table. -/
theorem lookup_in_range (getObject : Nat → Nat) (c : S2EMemObjectCache 101) (A : Nat) :
    c.lookup getObject A ≠ Except.error Fault.indexOutOfRange := by
  have hlt : A % 101 < 101 := Nat.mod_lt A (by decide)
  rw [lookup_eq getObject c A ⟨A % 101, hlt⟩ rfl]
  unfold assertSameObject
  split_ifs <;> simp

/-- Claim C16: every sequence of update calls with consistent pairs and invalidate calls
runs to completion from the empty cache, and in the cache reached each of the 101 slots is
either the empty entry (marker address, pair (NULL, NULL)) or holds an address of that slot
with a non-null consistent pair; the slot computed for any address is below 101 and no
lookup on the cache indexes outside the table. -/
theorem C16_slot_placement_invariant (getObject : Nat → Nat) (ops : List CacheOp)
    (hops : ∀ op ∈ ops, op.admissible getObject) :
    ∃ c, runOps getObject ops (init 101) = Except.ok c ∧
      (∀ i : Fin 101,
        ((c.m_entries i).address = emptyAddress ∧ (c.m_entries i).objPair = ObjectPair.mk 0 0) ∨
        ((c.m_entries i).address % 101 = i.val ∧
          (c.m_entries i).objPair.first ≠ 0 ∧ (c.m_entries i).objPair.second ≠ 0 ∧
          (c.m_entries i).objPair.first = getObject (c.m_entries i).objPair.second)) ∧
      (∀ A : Nat, slot 101 A < 101 ∧
        c.lookup getObject A ≠ Except.error Fault.indexOutOfRange) := by
  obtain ⟨c, hrun, hc⟩ :=
    runOps_preserves_slotInvariant getObject ops (init 101) (slotInvariant_init getObject) hops
  refine ⟨c, hrun, ?_, fun A => ⟨slot_101_lt A, lookup_in_range getObject c A⟩⟩
  intro i
  rcases hc i with h | ⟨h1, h2⟩
  · left
    rw [h]
    exact ⟨rfl, rfl⟩
  · right
    exact ⟨h1, h2⟩

theorem C16_slot_placement_invariant_witness :
    (∀ op ∈ sampleOps, op.admissible sampleGetObject) ∧
    ∃ c, runOps sampleGetObject sampleOps (init 101) = Except.ok c ∧
      (∀ i : Fin 101,
        ((c.m_entries i).address = emptyAddress ∧ (c.m_entries i).objPair = ObjectPair.mk 0 0) ∨
        ((c.m_entries i).address % 101 = i.val ∧
          (c.m_entries i).objPair.first ≠ 0 ∧ (c.m_entries i).objPair.second ≠ 0 ∧
          (c.m_entries i).objPair.first = sampleGetObject (c.m_entries i).objPair.second)) ∧
      (∀ A : Nat, slot 101 A < 101 ∧
        c.lookup sampleGetObject A ≠ Except.error Fault.indexOutOfRange) :=
  ⟨by decide, C16_slot_placement_invariant sampleGetObject sampleOps (by decide)⟩

/-- A lookup that returns a non-empty pair found its address stored in its slot. -/
theorem address_of_hit (getObject : Nat → Nat) (c : S2EMemObjectCache 101) (A : Nat)
    (P : ObjectPair) (h : c.lookup getObject A = Except.ok P) (hP : P ≠ ObjectPair.mk 0 0) :
    (c.m_entries ⟨A % 101, Nat.mod_lt A (by decide)⟩).address = A := by
  rw [lookup_eq getObject c A ⟨A % 101, Nat.mod_lt A (by decide)⟩ rfl] at h
  by_contra hne
  have hne2 : ¬ A = (c.m_entries ⟨A % 101, Nat.mod_lt A (by decide)⟩).address :=
    fun e => hne e.symm
  rw [if_neg hne2] at h
  exact hP (Except.ok.inj h).symm

/-- In any cache, the addresses whose lookup returns a non-empty pair are pairwise
incongruent modulo 101 and at most 101 in number. -/
theorem hits_bounded (getObject : Nat → Nat) (c : S2EMemObjectCache 101) :
    (∀ A B : Nat,
      (∃ P, c.lookup getObject A = Except.ok P ∧ P ≠ ObjectPair.mk 0 0) →
      (∃ Q, c.lookup getObject B = Except.ok Q ∧ Q ≠ ObjectPair.mk 0 0) →
      A % 101 = B % 101 → A = B) ∧
    Set.encard {A : Nat | ∃ P, c.lookup getObject A = Except.ok P ∧ P ≠ ObjectPair.mk 0 0}
      ≤ 101 := by
  constructor
  · rintro A B ⟨P, hP, hP0⟩ ⟨Q, hQ, hQ0⟩ hmod
    have hA := address_of_hit getObject c A P hP hP0
    have hB := address_of_hit getObject c B Q hQ hQ0
    have hidx : (⟨A % 101, Nat.mod_lt A (by decide)⟩ : Fin 101)
        = ⟨B % 101, Nat.mod_lt B (by decide)⟩ := Fin.ext hmod
    rw [hidx] at hA
    exact hA.symm.trans hB
  · have hsub : {A : Nat | ∃ P, c.lookup getObject A = Except.ok P ∧ P ≠ ObjectPair.mk 0 0}
        ⊆ ((Finset.univ.image (fun i : Fin 101 => (c.m_entries i).address) : Finset Nat)
            : Set Nat) := by
      rintro A ⟨P, hP, hP0⟩
      simp only [Finset.coe_image, Finset.coe_univ, Set.image_univ, Set.mem_range]
      exact ⟨_, address_of_hit getObject c A P hP hP0⟩
    refine (Set.encard_le_card hsub).trans ?_
    rw [Set.encard_coe_eq_coe_finsetCard]
    have hcard : (Finset.univ.image (fun i : Fin 101 => (c.m_entries i).address)).card ≤ 101 := by
      refine Finset.card_image_le.trans ?_
      simp
    exact_mod_cast hcard

/-- Claim C17: every sequence of update calls with consistent pairs and invalidate calls
runs to completion from the empty cache, and in the cache reached no two distinct addresses
whose lookup returns a non-empty pair are congruent modulo 101, and the set of such
addresses has at most 101 elements. -/
theorem C17_fixed_capacity (getObject : Nat → Nat) (ops : List CacheOp)
    (hops : ∀ op ∈ ops, op.admissible getObject) :
    ∃ c, runOps getObject ops (init 101) = Except.ok c ∧
      (∀ A B : Nat,
        (∃ P, c.lookup getObject A = Except.ok P ∧ P ≠ ObjectPair.mk 0 0) →
        (∃ Q, c.lookup getObject B = Except.ok Q ∧ Q ≠ ObjectPair.mk 0 0) →
        A % 101 = B % 101 → A = B) ∧
      Set.encard {A : Nat | ∃ P, c.lookup getObject A = Except.ok P ∧ P ≠ ObjectPair.mk 0 0}
        ≤ 101 := by
  obtain ⟨c, hrun, _⟩ :=
    runOps_preserves_slotInvariant getObject ops (init 101) (slotInvariant_init getObject) hops
  exact ⟨c, hrun, hits_bounded getObject c⟩

theorem C17_fixed_capacity_witness :
    (∀ op ∈ sampleOps, op.admissible sampleGetObject) ∧
    ∃ c, runOps sampleGetObject sampleOps (init 101) = Except.ok c ∧
      (∀ A B : Nat,
        (∃ P, c.lookup sampleGetObject A = Except.ok P ∧ P ≠ ObjectPair.mk 0 0) →
        (∃ Q, c.lookup sampleGetObject B = Except.ok Q ∧ Q ≠ ObjectPair.mk 0 0) →
        A % 101 = B % 101 → A = B) ∧
      Set.encard
        {A : Nat | ∃ P, c.lookup sampleGetObject A = Except.ok P ∧ P ≠ ObjectPair.mk 0 0}
        ≤ 101 :=
  ⟨by decide, C17_fixed_capacity sampleGetObject sampleOps (by decide)⟩

/-- On a cache with the slot-placement property, `lookup(A)` succeeds for every address
other than the one that marks empty slots, and returns the pair held for `A`. -/
theorem lookup_of_slotInvariant (getObject : Nat → Nat) (c : S2EMemObjectCache 101) (A : Nat)
    (hc : slotInvariant getObject c) (hA : A ≠ emptyAddress) :
    c.lookup getObject A = Except.ok (storedPair c A) := by
  have hlt : A % 101 < 101 := Nat.mod_lt A (by decide)
  rw [lookup_eq getObject c A ⟨A % 101, hlt⟩ rfl]
  unfold storedPair
  by_cases h : (c.m_entries ⟨A % 101, hlt⟩).address = A
  · rw [if_pos h.symm, if_pos h]
    rcases hc ⟨A % 101, hlt⟩ with h0 | ⟨_, hcons⟩
    · rw [h0] at h
      exact absurd h.symm hA
    · rw [assertSameObject_of_consistent hcons]
  · have h2 : ¬ A = (c.m_entries ⟨A % 101, hlt⟩).address := fun e => h e.symm
    rw [if_neg h2, if_neg h]

theorem storedPair_eq (c : S2EMemObjectCache 101) (A : Nat) (i : Fin 101)
    (hi : i.val = A % 101) :
    storedPair c A =
      if (c.m_entries i).address = A then (c.m_entries i).objPair else ObjectPair.mk 0 0 := by
  have hi2 : i = ⟨A % 101, Nat.mod_lt A (by decide)⟩ := Fin.ext hi
  subst hi2
  rfl

/-- The pair held for `A` after a successful call is the effect of the call on the pair
held before. -/
theorem storedPair_apply (getObject : Nat → Nat) (c c1 : S2EMemObjectCache 101) (op : CacheOp)
    (A : Nat) (hA : A ≠ emptyAddress) (hop : op.admissible getObject)
    (h : op.apply getObject c = Except.ok c1) :
    storedPair c1 A = op.effect A (storedPair c A) := by
  have hltA : A % 101 < 101 := Nat.mod_lt A (by decide)
  rw [storedPair_eq c1 A ⟨A % 101, hltA⟩ rfl, storedPair_eq c A ⟨A % 101, hltA⟩ rfl]
  cases op with
  | update B P =>
    have hlt : B % 101 < 101 := Nat.mod_lt B (by decide)
    simp only [CacheOp.apply] at h
    by_cases hslot : B % 101 = A % 101
    · rw [update_eq getObject c B P hop ⟨A % 101, hltA⟩ hslot.symm] at h
      have hc1 := (Except.ok.inj h).symm
      subst hc1
      simp only [Function.update_same, CacheOp.effect, hslot, if_true]
    · rw [update_eq getObject c B P hop ⟨B % 101, hlt⟩ rfl] at h
      have hc1 := (Except.ok.inj h).symm
      subst hc1
      have hidx : (⟨A % 101, hltA⟩ : Fin 101) ≠ ⟨B % 101, hlt⟩ :=
        fun e => hslot (congrArg Fin.val e).symm
      have hBA : ¬ B = A := fun e => hslot (congrArg (fun n => n % 101) e)
      simp only [Function.update_noteq hidx, CacheOp.effect, hslot, hBA, if_false]
  | invalidate B =>
    have hlt : B % 101 < 101 := Nat.mod_lt B (by decide)
    simp only [CacheOp.apply] at h
    by_cases hslot : B % 101 = A % 101
    · rw [invalidate_eq c B ⟨A % 101, hltA⟩ hslot.symm] at h
      by_cases hst : (c.m_entries ⟨A % 101, hltA⟩).address = B
      · rw [if_pos hst] at h
        have hc1 := (Except.ok.inj h).symm
        subst hc1
        have hm : ¬ CacheEntry.init.address = A := fun e => hA e.symm
        simp only [Function.update_same, CacheOp.effect, hm, if_false]
        by_cases hBA : B = A
        · simp only [hBA, if_true]
        · have hne : ¬ (c.m_entries ⟨A % 101, hltA⟩).address = A := by
            rw [hst]
            exact hBA
          simp only [hBA, hne, if_false]
      · rw [if_neg hst] at h
        have hc1 := (Except.ok.inj h).symm
        subst hc1
        by_cases hBA : B = A
        · subst hBA
          simp only [CacheOp.effect, hst, if_false, if_true]
        · simp only [CacheOp.effect, hBA, if_false]
    · rw [invalidate_eq c B ⟨B % 101, hlt⟩ rfl] at h
      have hidx : (⟨A % 101, hltA⟩ : Fin 101) ≠ ⟨B % 101, hlt⟩ :=
        fun e => hslot (congrArg Fin.val e).symm
      have hBA : ¬ B = A := fun e => hslot (congrArg (fun n => n % 101) e)
      by_cases hst : (c.m_entries ⟨B % 101, hlt⟩).address = B
      · rw [if_pos hst] at h
        have hc1 := (Except.ok.inj h).symm
        subst hc1
        simp only [Function.update_noteq hidx, CacheOp.effect, hBA, if_false]
      · rw [if_neg hst] at h
        have hc1 := (Except.ok.inj h).symm
        subst hc1
        simp only [CacheOp.effect, hBA, if_false]

theorem runOps_append_singleton (getObject : Nat → Nat) (ops : List CacheOp) (op : CacheOp) :
    ∀ c : S2EMemObjectCache 101,
      runOps getObject (ops ++ [op]) c =
        andThen (runOps getObject ops c) (fun c1 => op.apply getObject c1) := by
  induction ops with
  | nil =>
    intro c
    simp only [List.nil_append, runOps, andThen]
    cases op.apply getObject c <;> rfl
  | cons o rest ih =>
    intro c
    simp only [List.cons_append, runOps]
    cases o.apply getObject c with
    | error e => rfl
    | ok c1 => exact ih c1

theorem specLookup_of_undisturbed (ops : List CacheOp) (A : Nat)
    (h : ops.all (fun op => !(op.disturbs A)) = true) :
    specLookup ops A = ObjectPair.mk 0 0 := by
  induction ops with
  | nil => rfl
  | cons o rest ih =>
    simp only [List.all_cons, Bool.and_eq_true, Bool.not_eq_true'] at h
    obtain ⟨ho, hrest⟩ := h
    have ih2 := ih (by simpa using hrest)
    cases o with
    | update B P =>
      have hBA : ¬ B = A := by
        intro e
        subst e
        simp [CacheOp.disturbs] at ho
      simp only [specLookup, hBA, false_and, if_false, ih2]
    | invalidate B => simp only [specLookup, ih2]

theorem effect_of_disturbs (A : Nat) (v w : ObjectPair) (op : CacheOp)
    (h : op.disturbs A = true) : op.effect A v = op.effect A w := by
  cases op with
  | update B P =>
    have hs : B % 101 = A % 101 := by simpa [CacheOp.disturbs] using h
    simp only [CacheOp.effect, hs, if_true]
  | invalidate B =>
    have hs : B = A := by simpa [CacheOp.disturbs] using h
    simp only [CacheOp.effect, hs, if_true]

theorem effect_of_not_disturbs (A : Nat) (v : ObjectPair) (op : CacheOp)
    (h : op.disturbs A = false) : op.effect A v = v := by
  cases op with
  | update B P =>
    have hs : ¬ B % 101 = A % 101 := by simpa [CacheOp.disturbs] using h
    have hBA : ¬ B = A := fun e => hs (congrArg (fun n => n % 101) e)
    simp only [CacheOp.effect, hs, hBA, if_false]
  | invalidate B =>
    have hs : ¬ B = A := by simpa [CacheOp.disturbs] using h
    simp only [CacheOp.effect, hs, if_false]

theorem specLookup_update (B : Nat) (P : ObjectPair) (rest : List CacheOp) (A : Nat) :
    specLookup (CacheOp.update B P :: rest) A =
      if B = A ∧ rest.all (fun op => !(op.disturbs A)) then P else specLookup rest A := rfl

theorem specLookup_invalidate (B : Nat) (rest : List CacheOp) (A : Nat) :
    specLookup (CacheOp.invalidate B :: rest) A = specLookup rest A := rfl

theorem undisturbed_append_singleton (rest : List CacheOp) (op : CacheOp) (A : Nat) :
    (rest ++ [op]).all (fun o => !(o.disturbs A)) =
      (rest.all (fun o => !(o.disturbs A)) && !(op.disturbs A)) := by
  simp [List.all_append]

/-- Appending a call to a sequence changes the described partial map by the effect of that
call. -/
theorem specLookup_append_singleton (ops : List CacheOp) (op : CacheOp) (A : Nat) :
    specLookup (ops ++ [op]) A = op.effect A (specLookup ops A) := by
  induction ops with
  | nil =>
    cases op with
    | update B P =>
      by_cases hBA : B = A <;> simp [specLookup, CacheOp.effect, hBA]
    | invalidate B => simp [specLookup, CacheOp.effect]
  | cons o rest ih =>
    cases o with
    | invalidate B =>
      rw [List.cons_append, specLookup_invalidate, specLookup_invalidate, ih]
    | update B P =>
      rw [List.cons_append, specLookup_update, specLookup_update, ih,
        undisturbed_append_singleton]
      by_cases hBA : B = A
      · by_cases hrest : rest.all (fun o => !(o.disturbs A)) = true
        · cases hd : op.disturbs A with
          | true =>
            have e1 : ¬ (B = A ∧ (rest.all (fun o => !(o.disturbs A)) && !true) = true) := by
              simp
            rw [if_neg e1, if_pos ⟨hBA, hrest⟩, specLookup_of_undisturbed rest A hrest]
            exact effect_of_disturbs A _ _ op hd
          | false =>
            have e1 : B = A ∧ (rest.all (fun o => !(o.disturbs A)) && !false) = true := by
              simp [hBA, hrest]
            rw [if_pos e1, if_pos ⟨hBA, hrest⟩, effect_of_not_disturbs A P op hd]
        · have e1 : ¬ (B = A ∧
              (rest.all (fun o => !(o.disturbs A)) && !(op.disturbs A)) = true) := by
            intro h
            have h2 := h.2
            rw [Bool.and_eq_true] at h2
            exact hrest h2.1
          rw [if_neg e1, if_neg (fun h => hrest h.2)]
      · have e1 : ¬ (B = A ∧
            (rest.all (fun o => !(o.disturbs A)) && !(op.disturbs A)) = true) :=
          fun h => hBA h.1
        rw [if_neg e1, if_neg (fun h => hBA h.1)]

/-- From the empty cache a sequence of admissible calls runs to completion, the cache
reached has the slot-placement property, and for every address other than the one that
marks empty slots the pair it holds is the one of the described partial map. -/
theorem runOps_refines (getObject : Nat → Nat) (A : Nat) (hA : A ≠ emptyAddress)
    (ops : List CacheOp) (hops : ∀ op ∈ ops, op.admissible getObject) :
    ∃ c, runOps getObject ops (init 101) = Except.ok c ∧ slotInvariant getObject c ∧
      storedPair c A = specLookup ops A := by
  induction ops using List.reverseRecOn with
  | nil =>
    refine ⟨init 101, rfl, slotInvariant_init getObject, ?_⟩
    unfold storedPair specLookup
    have hm : ¬ CacheEntry.init.address = A := fun e => hA e.symm
    exact if_neg hm
  | append_singleton l op ih =>
    obtain ⟨c, hrun, hc, hst⟩ := ih (fun o ho => hops o (List.mem_append_left [op] ho))
    have hop : op.admissible getObject :=
      hops op (List.mem_append_right l (List.mem_singleton_self op))
    obtain ⟨c1, h1, hc1⟩ := apply_preserves_slotInvariant getObject c op hc hop
    refine ⟨c1, ?_, hc1, ?_⟩
    · rw [runOps_append_singleton, hrun]
      exact h1
    · rw [storedPair_apply getObject c c1 op A hA hop h1, hst, specLookup_append_singleton]

/-- The refinement away from the marker: after any sequence of admissible calls on the empty
cache, `lookup(A)` succeeds and returns the pair of the described partial map, for every
address other than the one that marks empty slots. -/
theorem lookup_refines_specLookup (getObject : Nat → Nat) (A : Nat) (hA : A ≠ emptyAddress)
    (ops : List CacheOp) (hops : ∀ op ∈ ops, op.admissible getObject) :
    andThen (runOps getObject ops (init 101)) (fun c => c.lookup getObject A)
      = Except.ok (specLookup ops A) := by
  obtain ⟨c, hrun, hc, hst⟩ := runOps_refines getObject A hA ops hops
  rw [hrun]
  simp only [andThen]
  rw [lookup_of_slotInvariant getObject c A hc hA, hst]

/-- Claim C14, evaluated where it fails: after update(M, P); invalidate(M) on the empty
cache, M being the address that marks empty slots, the described partial map gives the
empty pair for M, while `lookup(M)` takes the hit branch on the emptied slot and its
assertion dereferences the null snapshot. -/
theorem C14_lookup_after_ops_at_marker :
    (∀ op ∈ markerOps, op.admissible sampleGetObject) ∧
    specLookup markerOps emptyAddress = ObjectPair.mk 0 0 ∧
    andThen (runOps sampleGetObject markerOps (init 101))
      (fun c => c.lookup sampleGetObject emptyAddress) = Except.error Fault.nullDereference := by
  refine ⟨by decide, by decide, by decide⟩

/-- Claim C15, evaluated where it fails: the cache reached from the empty cache by the
sample sequence of admissible calls still stores the marker address with a null snapshot in
the slot of the marker, so `lookup` of the marker address evaluates its assertion on a null
snapshot. -/
theorem C15_assertion_meets_null_snapshot :
    (∀ op ∈ sampleOps, op.admissible sampleGetObject) ∧
    ∃ c, runOps sampleGetObject sampleOps (init 101) = Except.ok c ∧
      (c.m_entries ⟨emptyAddress % 101, Nat.mod_lt emptyAddress (by decide)⟩).address
        = emptyAddress ∧
      (c.m_entries ⟨emptyAddress % 101, Nat.mod_lt emptyAddress (by decide)⟩).objPair.second
        = 0 ∧
      c.lookup sampleGetObject emptyAddress = Except.error Fault.nullDereference := by
  refine ⟨by decide, _, rfl, by decide, by decide, by decide⟩

/-- Away from the marker the assertion of `lookup` holds on every reachable cache: after any
sequence of admissible calls on the empty cache, for every address A other than the one that
marks empty slots, `lookup(A)` succeeds, and when the stored address of the slot equals A
the stored snapshot is non-null and belongs to the stored object. -/
theorem lookup_assertion_valid_of_ne_marker (getObject : Nat → Nat) (A : Nat)
    (hA : A ≠ emptyAddress) (ops : List CacheOp) (hops : ∀ op ∈ ops, op.admissible getObject) :
    ∃ c, runOps getObject ops (init 101) = Except.ok c ∧
      (∃ P, c.lookup getObject A = Except.ok P) ∧
      ((c.m_entries ⟨A % 101, Nat.mod_lt A (by decide)⟩).address = A →
        (c.m_entries ⟨A % 101, Nat.mod_lt A (by decide)⟩).objPair.consistent getObject) := by
  obtain ⟨c, hrun, hc, _⟩ := runOps_refines getObject A hA ops hops
  refine ⟨c, hrun, ⟨_, lookup_of_slotInvariant getObject c A hc hA⟩, ?_⟩
  intro h
  rcases hc ⟨A % 101, Nat.mod_lt A (by decide)⟩ with h0 | ⟨_, hcons⟩
  · rw [h0] at h
    exact absurd h.symm hA
  · exact hcons

/-- A call that returns leaves the object in the state it returns. -/
theorem getPluginStateLeaves_of_ok {AS : Type} (s : S2EExecutionState AS) (p : Nat)
    (f : PluginStateFactory AS) (r : PluginStateResult AS)
    (h : getPluginState s p f = Except.ok r) : getPluginStateLeaves s p f = r.state := by
  unfold getPluginState at h
  unfold getPluginStateLeaves
  cases hfind : s.m_PluginState.find p with
  | none =>
    rw [hfind] at h
    by_cases h0 : f p s = 0
    · simp only [h0, if_true] at h
      cases h
    · simp only [h0, if_false] at h
      simp only [h0, if_false]
      rw [← Except.ok.inj h]
  | some v =>
    rw [hfind] at h
    simp only
    rw [← Except.ok.inj h]

/-- A call that returns gives a non-null pointer and stores no null pointer, provided the
registry held none before. -/
theorem getPluginState_nonnull {AS : Type} (s : S2EExecutionState AS) (p : Nat)
    (f : PluginStateFactory AS) (r : PluginStateResult AS)
    (hreg : ∀ k v, s.m_PluginState.find k = some v → v ≠ 0)
    (h : getPluginState s p f = Except.ok r) :
    r.ret ≠ 0 ∧ ∀ k v, r.state.m_PluginState.find k = some v → v ≠ 0 := by
  cases hfind : s.m_PluginState.find p with
  | none =>
    by_cases h0 : f p s = 0
    · unfold getPluginState at h
      rw [hfind] at h
      simp only [h0, if_true] at h
      cases h
    · rw [getPluginState_of_absent s p f hfind h0] at h
      have hr := Except.ok.inj h
      subst hr
      refine ⟨h0, ?_⟩
      intro k v hk
      by_cases hpk : p = k
      · subst hpk
        rw [find_assign_self] at hk
        rw [← Option.some.inj hk]
        exact h0
      · rw [find_assign_of_ne _ p _ k hpk] at hk
        exact hreg k v hk
  | some x =>
    rw [getPluginState_of_present s p x f hfind] at h
    have hr := Except.ok.inj h
    subst hr
    exact ⟨hreg p x hfind, hreg⟩

/-- Claim C18: when plugin p has no entry and the factory returns null for (p, state),
getPluginState(p, factory) stops at its failed assertion and leaves the object, registry
included, as it was, still without an entry for p; a later getPluginState(p, g) on it invokes
g, once, with (p, state); and no call that returns gives or stores a null plugin state in a
registry that held none. -/
theorem C18_null_factory_rejected {AS : Type} (s : S2EExecutionState AS) (p : Nat)
    (f : PluginStateFactory AS) (hnew : s.m_PluginState.find p = none) (hnull : f p s = 0) :
    getPluginState s p f = Except.error Fault.assertionFailure ∧
    getPluginStateLeaves s p f = s ∧
    (getPluginStateLeaves s p f).m_PluginState.find p = none ∧
    (∀ g : PluginStateFactory AS, g p (getPluginStateLeaves s p f) ≠ 0 →
      ∃ r, getPluginState (getPluginStateLeaves s p f) p g = Except.ok r ∧
        r.invoked = [(p, getPluginStateLeaves s p f)] ∧
        r.ret = g p (getPluginStateLeaves s p f)) ∧
    (∀ (t : S2EExecutionState AS) (q : Nat) (g : PluginStateFactory AS)
        (r : PluginStateResult AS),
      (∀ k v, t.m_PluginState.find k = some v → v ≠ 0) →
      getPluginState t q g = Except.ok r →
      r.ret ≠ 0 ∧ ∀ k v, r.state.m_PluginState.find k = some v → v ≠ 0) := by
  have hleaves : getPluginStateLeaves s p f = s := by
    unfold getPluginStateLeaves
    rw [hnew]
    simp only [hnull, if_true]
  refine ⟨?_, hleaves, ?_, ?_, ?_⟩
  · unfold getPluginState
    rw [hnew]
    simp only [hnull, if_true]
  · rw [hleaves]
    exact hnew
  · intro g hg
    rw [hleaves] at hg ⊢
    exact ⟨_, getPluginState_of_absent s p g hnew hg, rfl, rfl⟩
  · intro t q g r hreg h
    exact getPluginState_nonnull t q g r hreg h

theorem C18_null_factory_rejected_witness :
    sampleState.m_PluginState.find 3 = none ∧ nullFactory 3 sampleState = 0 ∧
    getPluginState sampleState 3 nullFactory = Except.error Fault.assertionFailure ∧
    getPluginStateLeaves sampleState 3 nullFactory = sampleState ∧
    (getPluginStateLeaves sampleState 3 nullFactory).m_PluginState.find 3 = none ∧
    (∀ g : PluginStateFactory Unit, g 3 (getPluginStateLeaves sampleState 3 nullFactory) ≠ 0 →
      ∃ r, getPluginState (getPluginStateLeaves sampleState 3 nullFactory) 3 g = Except.ok r ∧
        r.invoked = [(3, getPluginStateLeaves sampleState 3 nullFactory)] ∧
        r.ret = g 3 (getPluginStateLeaves sampleState 3 nullFactory)) ∧
    (∀ (t : S2EExecutionState Unit) (q : Nat) (g : PluginStateFactory Unit)
        (r : PluginStateResult Unit),
      (∀ k v, t.m_PluginState.find k = some v → v ≠ 0) →
      getPluginState t q g = Except.ok r →
      r.ret ≠ 0 ∧ ∀ k v, r.state.m_PluginState.find k = some v → v ≠ 0) :=
  ⟨by decide, rfl, C18_null_factory_rejected sampleState 3 nullFactory (by decide) rfl⟩

/-- Claim C13: for a virtual address that the page tables do not map, `getPhysicalAddress`
and `getHostAddress` return a value, namely `-1` as `uint64_t`, which is the maximum address
value 2^64 - 1. -/
theorem C13_translation_failure_sentinel (E : Emulator) (virtualAddress : Nat)
    (hunmapped : E.virtToPhys virtualAddress = none) :
    getPhysicalAddress E virtualAddress = failAddress ∧
    getHostAddress E virtualAddress AddressType.VirtualAddress = failAddress ∧
    failAddress = 2 ^ 64 - 1 := by
  refine ⟨?_, ?_, by decide⟩
  · unfold getPhysicalAddress
    rw [hunmapped]
  · unfold getHostAddress
    simp only [hunmapped]

theorem C13_translation_failure_sentinel_witness :
    sampleEmulator.virtToPhys 12345 = none ∧
    getPhysicalAddress sampleEmulator 12345 = failAddress ∧
    getHostAddress sampleEmulator 12345 AddressType.VirtualAddress = failAddress ∧
    failAddress = 2 ^ 64 - 1 :=
  ⟨by decide, C13_translation_failure_sentinel sampleEmulator 12345 (by decide)⟩

/-- The cache of a well-formed state has the slot-placement property. -/
theorem slotInvariant_of_wellFormed (H : SnapshotHeap) (s : S2EExecutionState SpecAddressSpace)
    (hwf : wellFormed H s) : slotInvariant H.object s.m_memCache := by
  intro i
  rcases hwf.2.2 i with h | ⟨h1, h2, h3⟩
  · exact Or.inl h
  · right
    refine ⟨h1, ?_⟩
    rw [h2] at h3 ⊢
    exact (hwf.1 _ h3).1

/-- In a well-formed state the pair the cache holds for an address is the pair of the
address space, or the empty pair. -/
theorem storedPair_of_wellFormed (H : SnapshotHeap) (s : S2EExecutionState SpecAddressSpace)
    (key : Nat) (hwf : wellFormed H s) (hkey : key ≠ emptyAddress) :
    (storedPair s.m_memCache key = s.addressSpace.objects key ∧
      (s.addressSpace.objects key).first ≠ 0) ∨
    (storedPair s.m_memCache key = ObjectPair.mk 0 0 ∧
      (s.m_memCache.m_entries ⟨key % 101, Nat.mod_lt key (by decide)⟩).address ≠ key) := by
  have hlt : key % 101 < 101 := Nat.mod_lt key (by decide)
  rw [storedPair_eq s.m_memCache key ⟨key % 101, hlt⟩ rfl]
  by_cases h : (s.m_memCache.m_entries ⟨key % 101, hlt⟩).address = key
  · left
    rw [if_pos h]
    rcases hwf.2.2 ⟨key % 101, hlt⟩ with h0 | ⟨_, h2, h3⟩
    · rw [h0] at h
      exact absurd h.symm hkey
    · rw [h] at h2
      rw [h2] at h3
      exact ⟨h2, h3⟩
  · right
    rw [if_neg h]
    exact ⟨rfl, h⟩

/-- The cache-backed resolution of an address in a well-formed state gives the pair of the
address space and leaves a well-formed state with the same address space. -/
theorem specFetch_of_wellFormed (H : SnapshotHeap) (s : S2EExecutionState SpecAddressSpace)
    (key tpm : Nat) (hwf : wellFormed H s) (hkey : key ≠ emptyAddress) :
    ∃ cache, specFetchObjectStateMem H s key tpm
        = Except.ok (s.addressSpace.objects key, cache) ∧
      wellFormed H { s with m_memCache := cache } := by
  have hlt : key % 101 < 101 := Nat.mod_lt key (by decide)
  have hlook := lookup_of_slotInvariant H.object s.m_memCache key
    (slotInvariant_of_wellFormed H s hwf) hkey
  unfold specFetchObjectStateMem
  simp only [hlook]
  rcases storedPair_of_wellFormed H s key hwf hkey with ⟨h1, h2⟩ | ⟨h1, h2⟩
  · rw [h1]
    simp only [ne_eq, h2, not_false_eq_true, if_true]
    exact ⟨s.m_memCache, rfl, hwf⟩
  · rw [h1]
    simp only [ne_eq, not_true_eq_false, if_false]
    by_cases hmap : (s.addressSpace.objects key).first = 0
    · simp only [hmap, if_true]
      exact ⟨s.m_memCache, rfl, hwf⟩
    · simp only [hmap, if_false]
      have hcons := (hwf.1 key hmap).1
      rw [update_eq H.object s.m_memCache key _ hcons ⟨key % 101, hlt⟩ rfl]
      refine ⟨_, rfl, hwf.1, hwf.2.1, ?_⟩
      intro i
      by_cases hi : i = ⟨key % 101, hlt⟩
      · subst hi
        right
        simp only [Function.update_same]
        exact ⟨trivial, trivial, hmap⟩
      · simp only [Function.update_noteq hi]
        exact hwf.2.2 i

/-- The read of one byte in a well-formed state gives the byte the address space holds and
leaves a well-formed state that differs in the cache only. -/
theorem specReadByte_of_wellFormed (E : Emulator) (H : SnapshotHeap)
    (s : S2EExecutionState SpecAddressSpace) (hostAddress : Nat) (hwf : wellFormed H s)
    (hkey : objectBase E hostAddress ≠ emptyAddress) :
    ∃ cache, specReadByte E H s hostAddress
        = Except.ok (contentAt E H s hostAddress, { s with m_memCache := cache }) ∧
      wellFormed H { s with m_memCache := cache } := by
  obtain ⟨cache, hfetch, hwf1⟩ :=
    specFetch_of_wellFormed H s (objectBase E hostAddress) 0 hwf hkey
  refine ⟨cache, ?_, hwf1⟩
  unfold specReadByte contentAt
  rw [hfetch]
  by_cases hmap : (s.addressSpace.objects (objectBase E hostAddress)).first = 0
  · simp only [hmap, if_true]
  · simp only [hmap, if_false]

/-- After `invalidate(key)` every entry is empty, or is the entry it was and, if it sits in
the slot of its address, holds another address than `key`. -/
theorem invalidate_entries (c : S2EMemObjectCache 101) (key : Nat) :
    ∃ c2, c.invalidate key = Except.ok c2 ∧
      ∀ i : Fin 101, c2.m_entries i = CacheEntry.init ∨
        (c2.m_entries i = c.m_entries i ∧
          ((c.m_entries i).address % 101 = i.val → (c.m_entries i).address ≠ key)) := by
  have hlt : key % 101 < 101 := Nat.mod_lt key (by decide)
  rw [invalidate_eq c key ⟨key % 101, hlt⟩ rfl]
  by_cases h : (c.m_entries ⟨key % 101, hlt⟩).address = key
  · rw [if_pos h]
    refine ⟨_, rfl, ?_⟩
    intro i
    by_cases hi : i = ⟨key % 101, hlt⟩
    · left
      subst hi
      simp only [Function.update_same]
    · right
      simp only [Function.update_noteq hi, true_and]
      intro hplace hk
      apply hi
      apply Fin.ext
      rw [← hplace, hk]
  · rw [if_neg h]
    refine ⟨c, rfl, ?_⟩
    intro i
    right
    refine ⟨rfl, ?_⟩
    intro hplace hk
    by_cases hi : i = ⟨key % 101, hlt⟩
    · subst hi
      exact h hk
    · apply hi
      apply Fin.ext
      rw [← hplace, hk]

/-- A host address is determined by the address of its object and its offset in it. -/
theorem hostAddress_eq_of_base_offset (E : Emulator) (h1 h2 : Nat)
    (hbase : objectBase E h1 = objectBase E h2)
    (hoff : h1 % E.objectSize = h2 % E.objectSize) : h1 = h2 := by
  unfold objectBase at hbase
  have e1 := Nat.sub_add_cancel (Nat.mod_le h1 E.objectSize)
  have e2 := Nat.sub_add_cancel (Nat.mod_le h2 E.objectSize)
  rw [← e1, ← e2, hbase, hoff]

/-- Well-formedness, heap continuation and contents after a copy-on-write store: the state
is rebound at `key` to the fresh snapshot `H.last + 1`, a copy of the old snapshot with the
byte at `off` replaced. -/
theorem cow_store_facts (E : Emulator) (H : SnapshotHeap)
    (s : S2EExecutionState SpecAddressSpace) (hostAddress b : Nat)
    (c2 : S2EMemObjectCache 101) (hwf : wellFormed H s)
    (hmap : (s.addressSpace.objects (objectBase E hostAddress)).first ≠ 0)
    (hent : ∀ i : Fin 101, c2.m_entries i = CacheEntry.init ∨
      (c2.m_entries i = s.m_memCache.m_entries i ∧
        ((s.m_memCache.m_entries i).address % 101 = i.val →
          (s.m_memCache.m_entries i).address ≠ objectBase E hostAddress)))
    (H2 : SnapshotHeap) (s2 : S2EExecutionState SpecAddressSpace)
    (hlast : H2.last = H.last + 1)
    (hobj : H2.object = Function.update H.object (H.last + 1)
      (s.addressSpace.objects (objectBase E hostAddress)).first)
    (hshared : H2.shared = Function.update H.shared (H.last + 1) false)
    (hcontent : H2.content = Function.update H.content (H.last + 1)
      (Function.update (H.content (s.addressSpace.objects (objectBase E hostAddress)).second)
        (hostAddress % E.objectSize) (MemByte.concrete b)))
    (hbind : s2.addressSpace.objects = Function.update s.addressSpace.objects
      (objectBase E hostAddress)
      (ObjectPair.mk (s.addressSpace.objects (objectBase E hostAddress)).first (H.last + 1)))
    (hcache : s2.m_memCache = c2) :
    wellFormed H2 s2 ∧ heapExtends H H2 ∧
    (∀ key, (s2.addressSpace.objects key).first = (s.addressSpace.objects key).first) ∧
    (∀ h, contentAt E H2 s2 h =
      if h = hostAddress then some (MemByte.concrete b) else contentAt E H s h) := by
  obtain ⟨hwf1, hwf2, hwf3⟩ := hwf
  have hfirst : ∀ key, (s2.addressSpace.objects key).first
      = (s.addressSpace.objects key).first := by
    intro key
    rw [hbind]
    by_cases hk : key = objectBase E hostAddress
    · subst hk
      simp only [Function.update_same]
    · simp only [Function.update_noteq hk]
  have hold : ∀ key, key ≠ objectBase E hostAddress →
      s2.addressSpace.objects key = s.addressSpace.objects key := by
    intro key hk
    rw [hbind]
    simp only [Function.update_noteq hk]
  have hnew : s2.addressSpace.objects (objectBase E hostAddress)
      = ObjectPair.mk (s.addressSpace.objects (objectBase E hostAddress)).first (H.last + 1) := by
    rw [hbind]
    simp only [Function.update_same]
  have hfresh : ∀ key, (s.addressSpace.objects key).first ≠ 0 →
      (s.addressSpace.objects key).second ≠ H.last + 1 := by
    intro key hk
    have := (hwf1 key hk).2
    omega
  refine ⟨⟨?_, ?_, ?_⟩, ⟨?_, ?_⟩, hfirst, ?_⟩
  · intro key hk
    by_cases hkey : key = objectBase E hostAddress
    · subst hkey
      rw [hnew]
      refine ⟨⟨hmap, Nat.succ_ne_zero _, ?_⟩, ?_⟩
      · rw [hobj]
        simp only [Function.update_same]
      · rw [hlast]
    · rw [hfirst] at hk
      rw [hold key hkey]
      obtain ⟨⟨h1, h2, h3⟩, h4⟩ := hwf1 key hk
      refine ⟨⟨h1, h2, ?_⟩, ?_⟩
      · rw [hobj]
        simp only [Function.update_noteq (hfresh key hk)]
        exact h3
      · rw [hlast]
        omega
  · intro k1 k2 h1 h2 h12
    rw [hfirst] at h1 h2
    by_cases hk1 : k1 = objectBase E hostAddress
    · by_cases hk2 : k2 = objectBase E hostAddress
      · rw [hk1, hk2]
      · rw [hk1, hnew, hold k2 hk2] at h12
        exact absurd h12.symm (hfresh k2 h2)
    · by_cases hk2 : k2 = objectBase E hostAddress
      · rw [hk2, hnew, hold k1 hk1] at h12
        exact absurd h12 (hfresh k1 h1)
      · rw [hold k1 hk1, hold k2 hk2] at h12
        exact hwf2 k1 k2 h1 h2 h12
  · intro i
    rw [hcache]
    rcases hent i with h0 | ⟨hsame, hne⟩
    · exact Or.inl h0
    · rcases hwf3 i with h0 | ⟨hp1, hp2, hp3⟩
      · left
        rw [hsame, h0]
      · right
        rw [hsame]
        refine ⟨hp1, ?_, hp3⟩
        rw [hold _ (hne hp1)]
        exact hp2
  · rw [hlast]
    omega
  · intro p hp
    have hpne : p ≠ H.last + 1 := by omega
    rw [hobj, hshared, hcontent]
    simp only [Function.update_noteq hpne]
    exact ⟨trivial, trivial, fun _ => trivial⟩
  · intro h
    unfold contentAt
    by_cases hk : objectBase E h = objectBase E hostAddress
    · rw [hk, hnew, hcontent]
      simp only [hmap, if_false, Function.update_same]
      by_cases hh : h = hostAddress
      · subst hh
        simp only [Function.update_same, if_true]
      · have hoff : h % E.objectSize ≠ hostAddress % E.objectSize :=
          fun e => hh (hostAddress_eq_of_base_offset E h hostAddress hk e)
        simp only [Function.update_noteq hoff, hh, if_false]
    · have hh : h ≠ hostAddress := fun e => hk (congrArg (objectBase E) e)
      rw [hold _ hk, hcontent]
      simp only [hh, if_false]
      by_cases hm : (s.addressSpace.objects (objectBase E h)).first = 0
      · simp only [hm, if_true]
      · simp only [hm, if_false, Function.update_noteq (hfresh _ hm)]

/-- Well-formedness, heap continuation and contents after a store in place into a snapshot
that is not shared. -/
theorem inplace_store_facts (E : Emulator) (H : SnapshotHeap)
    (s : S2EExecutionState SpecAddressSpace) (hostAddress b : Nat) (hwf : wellFormed H s)
    (hmap : (s.addressSpace.objects (objectBase E hostAddress)).first ≠ 0)
    (hns : ¬ H.shared (s.addressSpace.objects (objectBase E hostAddress)).second = true)
    (H2 : SnapshotHeap) (hlast : H2.last = H.last) (hobj : H2.object = H.object)
    (hshared : H2.shared = H.shared)
    (hcontent : H2.content = Function.update H.content
      (s.addressSpace.objects (objectBase E hostAddress)).second
      (Function.update (H.content (s.addressSpace.objects (objectBase E hostAddress)).second)
        (hostAddress % E.objectSize) (MemByte.concrete b))) :
    wellFormed H2 s ∧ heapExtends H H2 ∧
    (∀ h, contentAt E H2 s h =
      if h = hostAddress then some (MemByte.concrete b) else contentAt E H s h) := by
  obtain ⟨hwf1, hwf2, hwf3⟩ := hwf
  refine ⟨⟨?_, hwf2, hwf3⟩, ⟨?_, ?_⟩, ?_⟩
  · intro key hk
    rw [hobj, hlast]
    exact hwf1 key hk
  · rw [hlast]
  · intro p _
    rw [hobj, hshared, hcontent]
    refine ⟨rfl, rfl, ?_⟩
    intro hp
    have hpne : p ≠ (s.addressSpace.objects (objectBase E hostAddress)).second := by
      intro e
      rw [e] at hp
      exact hns hp
    simp only [Function.update_noteq hpne]
  · intro h
    unfold contentAt
    rw [hcontent]
    by_cases hk : objectBase E h = objectBase E hostAddress
    · rw [hk]
      simp only [hmap, if_false, Function.update_same]
      by_cases hh : h = hostAddress
      · subst hh
        simp only [Function.update_same, if_true]
      · have hoff : h % E.objectSize ≠ hostAddress % E.objectSize :=
          fun e => hh (hostAddress_eq_of_base_offset E h hostAddress hk e)
        simp only [Function.update_noteq hoff, hh, if_false]
    · have hh : h ≠ hostAddress := fun e => hk (congrArg (objectBase E) e)
      simp only [hh, if_false]
      by_cases hm : (s.addressSpace.objects (objectBase E h)).first = 0
      · simp only [hm, if_true]
      · have hsnap : (s.addressSpace.objects (objectBase E h)).second
            ≠ (s.addressSpace.objects (objectBase E hostAddress)).second :=
          fun e => hk (hwf2 _ _ hm hmap e)
        simp only [hm, if_false, Function.update_noteq hsnap]

/-- The write of one byte at a mapped host address in a well-formed state succeeds; the
state after it is well-formed over a heap that continues the old one, maps the same
addresses, and holds the written byte at that address and the old bytes elsewhere. -/
theorem specWriteByte_mapped (E : Emulator) (H : SnapshotHeap)
    (s : S2EExecutionState SpecAddressSpace) (hostAddress b : Nat) (hwf : wellFormed H s)
    (hkey : objectBase E hostAddress ≠ emptyAddress)
    (hmap : (s.addressSpace.objects (objectBase E hostAddress)).first ≠ 0) :
    ∃ H2 s2, specWriteByte E H s hostAddress b = Except.ok (true, H2, s2) ∧
      wellFormed H2 s2 ∧ heapExtends H H2 ∧
      (∀ key, (s2.addressSpace.objects key).first = (s.addressSpace.objects key).first) ∧
      (∀ h, contentAt E H2 s2 h =
        if h = hostAddress then some (MemByte.concrete b) else contentAt E H s h) := by
  obtain ⟨cache, hfetch, hwf1⟩ :=
    specFetch_of_wellFormed H s (objectBase E hostAddress) 0 hwf hkey
  unfold specWriteByte
  rw [hfetch]
  simp only [hmap, if_false]
  unfold specFetchObjectStateMemWritable
  by_cases hsh : H.shared (s.addressSpace.objects (objectBase E hostAddress)).second = true
  · simp only [hsh, if_true]
    obtain ⟨c2, hinv, hent⟩ := invalidate_entries cache (objectBase E hostAddress)
    rw [hinv]
    simp only []
    refine ⟨_, _, rfl, ?_⟩
    refine cow_store_facts E H { s with m_memCache := cache } hostAddress b c2 hwf1 hmap
      hent _ _ rfl rfl rfl ?_ rfl rfl
    simp only [Function.update_idem, Function.update_same]
  · simp only [hsh]
    refine ⟨_, _, rfl, ?_⟩
    have hfacts := inplace_store_facts E H { s with m_memCache := cache } hostAddress b hwf1
      hmap hsh
      { H with content := Function.update H.content (s.addressSpace.objects (objectBase E hostAddress)).second (Function.update (H.content (s.addressSpace.objects (objectBase E hostAddress)).second) (hostAddress % E.objectSize) (MemByte.concrete b)) }
      rfl rfl rfl rfl
    exact ⟨hfacts.1, hfacts.2.1, fun _ => rfl, hfacts.2.2⟩

/-- The write of one byte at an unmapped host address in a well-formed state fails with
`false` and changes nothing but the cache. -/
theorem specWriteByte_unmapped (E : Emulator) (H : SnapshotHeap)
    (s : S2EExecutionState SpecAddressSpace) (hostAddress b : Nat) (hwf : wellFormed H s)
    (hkey : objectBase E hostAddress ≠ emptyAddress)
    (hmap : (s.addressSpace.objects (objectBase E hostAddress)).first = 0) :
    ∃ cache, specWriteByte E H s hostAddress b
        = Except.ok (false, H, { s with m_memCache := cache }) ∧
      wellFormed H { s with m_memCache := cache } := by
  obtain ⟨cache, hfetch, hwf1⟩ :=
    specFetch_of_wellFormed H s (objectBase E hostAddress) 0 hwf hkey
  refine ⟨cache, ?_, hwf1⟩
  unfold specWriteByte
  rw [hfetch]
  simp only [hmap, if_true]

/-- The object address of a host address that is a `uint64_t` other than the failure value
is not the marker of empty cache slots. -/
theorem objectBase_ne_marker (E : Emulator) (h : Nat) (hlt : h < 2 ^ 64)
    (hne : h ≠ failAddress) : objectBase E h ≠ emptyAddress := by
  have hb : objectBase E h ≤ h := Nat.sub_le _ _
  have hf : failAddress = 18446744073709551615 := by decide
  have he : emptyAddress = 18446744073709551615 := by decide
  rw [hf] at hne
  rw [he]
  omega

/-- The result of `getHostAddress` is a `uint64_t`. -/
theorem getHostAddress_lt (E : Emulator) (address : Nat) (addressType : AddressType)
    (haddr : address < 2 ^ 64) : getHostAddress E address addressType < 2 ^ 64 := by
  have hf : failAddress < 2 ^ 64 := by decide
  unfold getHostAddress
  cases addressType with
  | HostAddress => exact haddr
  | PhysicalAddress =>
    simp only
    cases E.physToHost address with
    | none => exact hf
    | some h => exact Nat.mod_lt _ (by decide)
  | VirtualAddress =>
    simp only
    cases E.virtToPhys address with
    | none => exact hf
    | some pa =>
      simp only
      cases E.physToHost pa with
      | none => exact hf
      | some h => exact Nat.mod_lt _ (by decide)

theorem heapExtends_refl (H : SnapshotHeap) : heapExtends H H :=
  ⟨Nat.le_refl _, fun _ _ => ⟨rfl, rfl, fun _ => rfl⟩⟩

theorem heapExtends_trans {H1 H2 H3 : SnapshotHeap} (h12 : heapExtends H1 H2)
    (h23 : heapExtends H2 H3) : heapExtends H1 H3 := by
  refine ⟨Nat.le_trans h12.1 h23.1, ?_⟩
  intro p hp
  obtain ⟨a1, a2, a3⟩ := h12.2 p hp
  obtain ⟨b1, b2, b3⟩ := h23.2 p (Nat.le_trans hp h12.1)
  refine ⟨b1.trans a1, b2.trans a2, ?_⟩
  intro hs
  rw [b3 (a2.trans hs), a3 hs]

theorem hostOf_zero (E : Emulator) (addressType : AddressType) (address : Nat)
    (haddr : address < 2 ^ 64) :
    hostOf E addressType address 0 = getHostAddress E address addressType := by
  unfold hostOf
  rw [Nat.add_zero, Nat.mod_eq_of_lt haddr]

theorem hostOf_succ (E : Emulator) (addressType : AddressType) (address i : Nat) :
    hostOf E addressType ((address + 1) % 2 ^ 64) i = hostOf E addressType address (i + 1) := by
  unfold hostOf
  have e : ((address + 1) % 2 ^ 64 + i) % 2 ^ 64 = (address + (i + 1)) % 2 ^ 64 := by omega
  rw [e]

/-- The write of a buffer over a mapped range of a well-formed state succeeds; afterwards
the state is well-formed over a heap that continues the old one, maps the same addresses,
holds the bytes of the buffer at the addresses of the range and the old bytes elsewhere. -/
theorem writeMemoryConcrete_mapped (E : Emulator) (addressType : AddressType)
    (buf : List Nat) :
    ∀ (H : SnapshotHeap) (s : S2EExecutionState SpecAddressSpace) (address : Nat),
      address < 2 ^ 64 → wellFormed H s → mappedRange E s addressType address buf.length →
      distinctHostBytes E addressType address buf.length →
      ∃ H2 s2, writeMemoryConcrete E addressType H s address buf = Except.ok (true, H2, s2) ∧
        wellFormed H2 s2 ∧ heapExtends H H2 ∧
        (∀ key, (s2.addressSpace.objects key).first = (s.addressSpace.objects key).first) ∧
        (∀ i b, buf[i]? = some b →
          contentAt E H2 s2 (hostOf E addressType address i) = some (MemByte.concrete b)) ∧
        (∀ h, (∀ i, i < buf.length → hostOf E addressType address i ≠ h) →
          contentAt E H2 s2 h = contentAt E H s h) := by
  induction buf with
  | nil =>
    intro H s address _ hwf _ _
    refine ⟨H, s, rfl, hwf, heapExtends_refl H, fun _ => rfl, ?_, fun _ _ => rfl⟩
    intro i b hb
    simp at hb
  | cons b0 rest ih =>
    intro H s address haddr hwf hmapped hinj
    have h0 := hmapped 0 (Nat.succ_pos _)
    rw [hostOf_zero E addressType address haddr] at h0
    obtain ⟨H1, s1, hw1, hwf1, hext1, hfirst1, hcont1⟩ :=
      specWriteByte_mapped E H s (getHostAddress E address addressType) b0 hwf
        (objectBase_ne_marker E _ (getHostAddress_lt E address addressType haddr) h0.1) h0.2
    have hrange1 : mappedRange E s1 addressType ((address + 1) % 2 ^ 64) rest.length := by
      intro i hi
      rw [hostOf_succ, hfirst1]
      exact hmapped (i + 1) (Nat.succ_lt_succ hi)
    have hinj1 : distinctHostBytes E addressType ((address + 1) % 2 ^ 64) rest.length := by
      intro i hi j hj hij
      rw [hostOf_succ, hostOf_succ] at hij
      have := hinj (i + 1) (Nat.succ_lt_succ hi) (j + 1) (Nat.succ_lt_succ hj) hij
      omega
    obtain ⟨H2, s2, hw2, hwf2, hext2, hfirst2, hcont2, hframe2⟩ :=
      ih H1 s1 ((address + 1) % 2 ^ 64) (Nat.mod_lt _ (by decide)) hwf1 hrange1 hinj1
    have hnot0 : ∀ i, i < rest.length →
        hostOf E addressType ((address + 1) % 2 ^ 64) i ≠ getHostAddress E address addressType := by
      intro i hi e
      rw [hostOf_succ, ← hostOf_zero E addressType address haddr] at e
      have := hinj (i + 1) (Nat.succ_lt_succ hi) 0 (Nat.succ_pos _) e
      omega
    refine ⟨H2, s2, ?_, hwf2, heapExtends_trans hext1 hext2, ?_, ?_, ?_⟩
    · unfold writeMemoryConcrete
      simp only [h0.1, if_false, hw1]
      exact hw2
    · intro key
      rw [hfirst2, hfirst1]
    · intro i b hb
      cases i with
      | zero =>
        simp only [List.getElem?_cons_zero, Option.some.injEq] at hb
        subst hb
        rw [hostOf_zero E addressType address haddr, hframe2 _ hnot0, hcont1]
        simp only [if_true]
      | succ j =>
        simp only [List.getElem?_cons_succ] at hb
        rw [← hostOf_succ]
        exact hcont2 j b hb
    · intro h hh
      have hrest : ∀ i, i < rest.length →
          hostOf E addressType ((address + 1) % 2 ^ 64) i ≠ h := by
        intro i hi
        rw [hostOf_succ]
        exact hh (i + 1) (Nat.succ_lt_succ hi)
      have hne : h ≠ getHostAddress E address addressType := by
        intro e
        have := hh 0 (Nat.succ_pos _)
        rw [hostOf_zero E addressType address haddr] at this
        exact this e.symm
      rw [hframe2 h hrest, hcont1]
      simp only [hne, if_false]

/-- The read of a range whose addresses translate and hold the concrete bytes of `buf`
succeeds with `buf`, in a well-formed state, and changes nothing but the cache. -/
theorem readMemoryConcrete_of_content (E : Emulator) (H : SnapshotHeap)
    (addressType : AddressType) (buf : List Nat) :
    ∀ (s : S2EExecutionState SpecAddressSpace) (address : Nat),
      address < 2 ^ 64 → wellFormed H s →
      (∀ i, i < buf.length → hostOf E addressType address i ≠ failAddress) →
      (∀ i b, buf[i]? = some b →
        contentAt E H s (hostOf E addressType address i) = some (MemByte.concrete b)) →
      ∃ s2, readMemoryConcrete E H addressType s address buf.length
          = Except.ok (some buf, s2) ∧
        wellFormed H s2 ∧ s2.addressSpace = s.addressSpace := by
  induction buf with
  | nil =>
    intro s address _ hwf _ _
    exact ⟨s, rfl, hwf, rfl⟩
  | cons b0 rest ih =>
    intro s address haddr hwf htrans hcont
    have h0 := htrans 0 (Nat.succ_pos _)
    rw [hostOf_zero E addressType address haddr] at h0
    have hc0 := hcont 0 b0 (by simp)
    rw [hostOf_zero E addressType address haddr] at hc0
    obtain ⟨cache, hread, hwf1⟩ :=
      specReadByte_of_wellFormed E H s (getHostAddress E address addressType) hwf
        (objectBase_ne_marker E _ (getHostAddress_lt E address addressType haddr) h0)
    rw [hc0] at hread
    obtain ⟨s2, hrest, hwf2, has2⟩ :=
      ih { s with m_memCache := cache } ((address + 1) % 2 ^ 64) (Nat.mod_lt _ (by decide)) hwf1
        (by
          intro i hi
          rw [hostOf_succ]
          exact htrans (i + 1) (Nat.succ_lt_succ hi))
        (by
          intro i b hb
          rw [hostOf_succ]
          exact hcont (i + 1) b (by simpa using hb))
    refine ⟨s2, ?_, hwf2, has2⟩
    simp only [List.length_cons]
    unfold readMemoryConcrete
    simp only [h0, if_false, hread, hrest]

/-- Claim C11, as amended: in a well-formed state, for a mapped address range of any address
type whose addresses translate to pairwise distinct host bytes,
writeMemoryConcrete(addr, buf, n) returns true, and the readMemoryConcrete(addr, out, n)
that follows returns true with out equal to buf. -/
theorem C11_concrete_round_trip (E : Emulator) (H : SnapshotHeap)
    (s : S2EExecutionState SpecAddressSpace) (addressType : AddressType) (address : Nat)
    (buf : List Nat) (haddr : address < 2 ^ 64)
    (hwf : wellFormed H s) (hrange : mappedRange E s addressType address buf.length)
    (hdistinct : distinctHostBytes E addressType address buf.length) :
    ∃ H2 s2, writeMemoryConcrete E addressType H s address buf = Except.ok (true, H2, s2) ∧
      ∃ s3, readMemoryConcrete E H2 addressType s2 address buf.length
        = Except.ok (some buf, s3) := by
  obtain ⟨H2, s2, hw, hwf2, _, _, hcont, _⟩ :=
    writeMemoryConcrete_mapped E addressType buf H s address haddr hwf hrange hdistinct
  obtain ⟨s3, hr, _, _⟩ :=
    readMemoryConcrete_of_content E H2 addressType buf s2 address haddr hwf2
      (fun i hi => (hrange i hi).1) hcont
  exact ⟨H2, s2, hw, s3, hr⟩

/-- The sample state fits the sample heap. -/
theorem sampleMemState_wellFormed : wellFormed sampleHeap sampleMemState := by
  refine ⟨?_, ?_, fun _ => Or.inl rfl⟩
  · intro key hk
    simp only [sampleMemState] at hk ⊢
    by_cases h1 : key = 73728
    · simp only [h1, if_true]
      decide
    · by_cases h2 : key = 77824
      · simp only [h2]
        decide
      · simp only [h1, h2, if_false] at hk
        exact absurd rfl hk
  · intro k1 k2 hk1 hk2 h12
    simp only [sampleMemState] at hk1 hk2 h12
    by_cases a1 : k1 = 73728
    · by_cases b1 : k2 = 73728
      · rw [a1, b1]
      · by_cases b2 : k2 = 77824
        · simp [a1, b2] at h12
        · simp only [b1, b2, if_false] at hk2
          exact absurd rfl hk2
    · by_cases a2 : k1 = 77824
      · by_cases b1 : k2 = 73728
        · simp [a2, b1] at h12
        · by_cases b2 : k2 = 77824
          · rw [a2, b2]
          · simp only [b1, b2, if_false] at hk2
            exact absurd rfl hk2
      · simp only [a1, a2, if_false] at hk1
        exact absurd rfl hk1

/-- The state for the emulator with aliased pages fits the sample heap. -/
theorem aliasMemState_wellFormed : wellFormed sampleHeap aliasMemState := by
  refine ⟨?_, ?_, fun _ => Or.inl rfl⟩
  · intro key hk
    simp only [aliasMemState] at hk ⊢
    by_cases h1 : key = 65546
    · simp only [h1, if_true]
      decide
    · simp only [h1, if_false] at hk
      exact absurd rfl hk
  · intro k1 k2 hk1 hk2 _
    simp only [aliasMemState] at hk1 hk2
    by_cases a1 : k1 = 65546
    · by_cases b1 : k2 = 65546
      · rw [a1, b1]
      · simp only [b1, if_false] at hk2
        exact absurd rfl hk2
    · simp only [a1, if_false] at hk1
      exact absurd rfl hk1

theorem C11_concrete_round_trip_witness :
    8190 < 2 ^ 64 ∧ wellFormed sampleHeap sampleMemState ∧
    mappedRange sampleEmulator sampleMemState AddressType.VirtualAddress 8190
      [17, 18, 19, 20].length ∧
    distinctHostBytes sampleEmulator AddressType.VirtualAddress 8190 [17, 18, 19, 20].length ∧
    ∃ H2 s2, writeMemoryConcrete sampleEmulator AddressType.VirtualAddress sampleHeap
        sampleMemState 8190 [17, 18, 19, 20] = Except.ok (true, H2, s2) ∧
      ∃ s3, readMemoryConcrete sampleEmulator H2 AddressType.VirtualAddress s2 8190
        [17, 18, 19, 20].length = Except.ok (some [17, 18, 19, 20], s3) :=
  ⟨by decide, sampleMemState_wellFormed, by unfold mappedRange; decide,
    by unfold distinctHostBytes; decide,
    C11_concrete_round_trip sampleEmulator sampleHeap sampleMemState AddressType.VirtualAddress
      8190 [17, 18, 19, 20] (by decide) sampleMemState_wellFormed
      (by unfold mappedRange; decide) (by unfold distinctHostBytes; decide)⟩

/-- Claim C11 as stated fails under aliasing: with the virtual pages 3 and 4 at one physical
page, the three virtual addresses from 6 on form a mapped, all-concrete range of a
well-formed state, the write of the bytes 1, 2, 3 returns true, and the read that follows
returns true with the bytes 3, 2, 3. -/
theorem C11_round_trip_fails_under_aliasing :
    wellFormed sampleHeap aliasMemState ∧
    mappedRange aliasEmulator aliasMemState AddressType.VirtualAddress 6 3 ∧
    concreteRange aliasEmulator sampleHeap aliasMemState AddressType.VirtualAddress 6 3 ∧
    andThen
      (writeMemoryConcrete aliasEmulator AddressType.VirtualAddress sampleHeap aliasMemState 6
        [1, 2, 3])
      (fun w =>
        andThen (readMemoryConcrete aliasEmulator w.2.1 AddressType.VirtualAddress w.2.2 6 3)
          (fun r => Except.ok (w.1, r.1)))
      = Except.ok (true, some [3, 2, 3]) := by
  refine ⟨aliasMemState_wellFormed, by unfold mappedRange; decide, ?_, by decide⟩
  intro i hi e
  have hc : ∀ j, j < 3 →
      contentAt aliasEmulator sampleHeap aliasMemState
        (hostOf aliasEmulator AddressType.VirtualAddress 6 j) = some (MemByte.concrete 0) := by
    decide
  rw [hc i hi]
  simp

/-- A state bound to shared snapshots only is untouched by a continuation of the heap: it
stays well-formed and bound to shared snapshots, and holds the same bytes. -/
theorem other_state_frame (E : Emulator) (H H2 : SnapshotHeap)
    (t : S2EExecutionState SpecAddressSpace) (hwf : wellFormed H t)
    (hsh : boundToShared H t) (hext : heapExtends H H2) :
    wellFormed H2 t ∧ boundToShared H2 t ∧
    ∀ h, contentAt E H2 t h = contentAt E H t h := by
  obtain ⟨hwf1, hwf2, hwf3⟩ := hwf
  refine ⟨⟨?_, hwf2, hwf3⟩, ?_, ?_⟩
  · intro key hk
    obtain ⟨⟨h1, h2, h3⟩, h4⟩ := hwf1 key hk
    refine ⟨⟨h1, h2, ?_⟩, Nat.le_trans h4 hext.1⟩
    rw [(hext.2 _ h4).1]
    exact h3
  · intro key hk
    rw [(hext.2 _ (hwf1 key hk).2).2.1]
    exact hsh key hk
  · intro h
    unfold contentAt
    by_cases hm : (t.addressSpace.objects (objectBase E h)).first = 0
    · simp only [hm, if_true]
    · simp only [hm, if_false]
      rw [(hext.2 _ (hwf1 _ hm).2).2.2 (hsh _ hm)]

/-- A write of a buffer into a well-formed state always returns, with `true` or `false`,
and leaves a well-formed state over a heap that continues the old one. -/
theorem writeMemoryConcrete_total (E : Emulator) (addressType : AddressType)
    (buf : List Nat) :
    ∀ (H : SnapshotHeap) (s : S2EExecutionState SpecAddressSpace) (address : Nat),
      address < 2 ^ 64 → wellFormed H s →
      ∃ ok H2 s2, writeMemoryConcrete E addressType H s address buf = Except.ok (ok, H2, s2) ∧
        wellFormed H2 s2 ∧ heapExtends H H2 := by
  induction buf with
  | nil =>
    intro H s address _ hwf
    exact ⟨true, H, s, rfl, hwf, heapExtends_refl H⟩
  | cons b0 rest ih =>
    intro H s address haddr hwf
    by_cases hf : getHostAddress E address addressType = failAddress
    · refine ⟨false, H, s, ?_, hwf, heapExtends_refl H⟩
      unfold writeMemoryConcrete
      simp only [hf, if_true]
    · by_cases hmap : (s.addressSpace.objects
          (objectBase E (getHostAddress E address addressType))).first = 0
      · obtain ⟨cache, hw, hwf1⟩ :=
          specWriteByte_unmapped E H s (getHostAddress E address addressType) b0 hwf
            (objectBase_ne_marker E _ (getHostAddress_lt E address addressType haddr) hf) hmap
        refine ⟨false, H, _, ?_, hwf1, heapExtends_refl H⟩
        unfold writeMemoryConcrete
        simp only [hf, if_false, hw]
      · obtain ⟨H1, s1, hw1, hwf1, hext1, _, _⟩ :=
          specWriteByte_mapped E H s (getHostAddress E address addressType) b0 hwf
            (objectBase_ne_marker E _ (getHostAddress_lt E address addressType haddr) hf) hmap
        obtain ⟨ok, H2, s2, hw2, hwf2, hext2⟩ :=
          ih H1 s1 ((address + 1) % 2 ^ 64) (Nat.mod_lt _ (by decide)) hwf1
        refine ⟨ok, H2, s2, ?_, hwf2, heapExtends_trans hext1 hext2⟩
        unfold writeMemoryConcrete
        simp only [hf, if_false, hw1]
        exact hw2

/-- Reads of the same range in two well-formed states that hold the same bytes return, and
return the same result. -/
theorem readMemoryConcrete_congr (E : Emulator) (H H' : SnapshotHeap)
    (addressType : AddressType) (size : Nat) :
    ∀ (s s' : S2EExecutionState SpecAddressSpace) (address : Nat),
      address < 2 ^ 64 → wellFormed H s → wellFormed H' s' →
      (∀ h, contentAt E H s h = contentAt E H' s' h) →
      ∃ out s2 s2', readMemoryConcrete E H addressType s address size = Except.ok (out, s2) ∧
        readMemoryConcrete E H' addressType s' address size = Except.ok (out, s2') := by
  induction size with
  | zero =>
    intro s s' address _ _ _ _
    exact ⟨some [], s, s', rfl, rfl⟩
  | succ n ih =>
    intro s s' address haddr hwf hwf' hsame
    by_cases hf : getHostAddress E address addressType = failAddress
    · refine ⟨none, s, s', ?_, ?_⟩ <;>
      · unfold readMemoryConcrete
        simp only [hf, if_true]
    · obtain ⟨cache, hread, hwf1⟩ :=
        specReadByte_of_wellFormed E H s (getHostAddress E address addressType) hwf
          (objectBase_ne_marker E _ (getHostAddress_lt E address addressType haddr) hf)
      obtain ⟨cache', hread', hwf1'⟩ :=
        specReadByte_of_wellFormed E H' s' (getHostAddress E address addressType) hwf'
          (objectBase_ne_marker E _ (getHostAddress_lt E address addressType haddr) hf)
      rw [← hsame] at hread'
      cases hv : contentAt E H s (getHostAddress E address addressType) with
      | none =>
        rw [hv] at hread hread'
        refine ⟨none, { s with m_memCache := cache }, { s' with m_memCache := cache' }, ?_, ?_⟩
        · unfold readMemoryConcrete
          simp only [hf, if_false, hread]
        · unfold readMemoryConcrete
          simp only [hf, if_false, hread']
      | some v =>
        rw [hv] at hread hread'
        cases v with
        | symbolic e =>
          refine ⟨none, { s with m_memCache := cache }, { s' with m_memCache := cache' }, ?_, ?_⟩
          · unfold readMemoryConcrete
            simp only [hf, if_false, hread]
          · unfold readMemoryConcrete
            simp only [hf, if_false, hread']
        | concrete x =>
          obtain ⟨out, s2, s2', hr, hr'⟩ :=
            ih { s with m_memCache := cache } { s' with m_memCache := cache' }
              ((address + 1) % 2 ^ 64) (Nat.mod_lt _ (by decide)) hwf1 hwf1' hsame
          cases out with
          | none =>
            refine ⟨none, s2, s2', ?_, ?_⟩
            · unfold readMemoryConcrete
              simp only [hf, if_false, hread, hr]
            · unfold readMemoryConcrete
              simp only [hf, if_false, hread', hr']
          | some bytes =>
            refine ⟨some (x :: bytes), s2, s2', ?_, ?_⟩
            · unfold readMemoryConcrete
              simp only [hf, if_false, hread, hr]
            · unfold readMemoryConcrete
              simp only [hf, if_false, hread', hr']

/-- Writes of one state do not reach a second state that is bound to shared snapshots only:
the write returns, and every read of the second state, of a single byte at a host address
or of any range through `readMemoryConcrete`, returns what it returned before the write. -/
theorem write_isolated_from (E : Emulator) (H : SnapshotHeap)
    (w t : S2EExecutionState SpecAddressSpace)
    (hw : wellFormed H w) (ht : wellFormed H t) (hsh : boundToShared H t)
    (addressType : AddressType) (address : Nat) (buf : List Nat) (haddr : address < 2 ^ 64) :
    ∃ ok H2 w2, writeMemoryConcrete E addressType H w address buf = Except.ok (ok, H2, w2) ∧
      (∀ h, h < 2 ^ 64 → h ≠ failAddress → ∃ v t3 t4,
        specReadByte E H t h = Except.ok (v, t3) ∧
        specReadByte E H2 t h = Except.ok (v, t4)) ∧
      (∀ (readType : AddressType) (a n : Nat), a < 2 ^ 64 → ∃ out t3 t4,
        readMemoryConcrete E H readType t a n = Except.ok (out, t3) ∧
        readMemoryConcrete E H2 readType t a n = Except.ok (out, t4)) := by
  obtain ⟨ok, H2, w2, hwrite, _, hext⟩ :=
    writeMemoryConcrete_total E addressType buf H w address haddr hw
  obtain ⟨ht2, _, hsame⟩ := other_state_frame E H H2 t ht hsh hext
  refine ⟨ok, H2, w2, hwrite, ?_, ?_⟩
  · intro h hlt hne
    obtain ⟨c3, hr3, _⟩ :=
      specReadByte_of_wellFormed E H t h ht (objectBase_ne_marker E h hlt hne)
    obtain ⟨c4, hr4, _⟩ :=
      specReadByte_of_wellFormed E H2 t h ht2 (objectBase_ne_marker E h hlt hne)
    rw [hsame h] at hr4
    exact ⟨_, _, _, hr3, hr4⟩
  · intro readType a n ha
    exact readMemoryConcrete_congr E H H2 readType n t t a ha ht ht2
      (fun h => (hsame h).symm)

/-- Claim C12: the state S2 forked from a well-formed state S has an empty memory object
cache; a write into S2 returns and leaves every read of S (of a byte at a host address, of
any range through readMemoryConcrete) with the result it had before the write, and a write
into S likewise leaves every read of S2 unchanged. -/
theorem C12_fork_isolation (E : Emulator) (H : SnapshotHeap)
    (s : S2EExecutionState SpecAddressSpace) (s_lastStateID : Int)
    (deviceCopy timersCopy : Nat) (hwf : wellFormed H s) :
    (specClone H s s_lastStateID deviceCopy timersCopy).child.m_memCache
      = S2EMemObjectCache.init 101 ∧
    (∀ (addressType : AddressType) (address : Nat) (buf : List Nat), address < 2 ^ 64 →
      ∃ ok H2 c2,
        writeMemoryConcrete E addressType (specClone H s s_lastStateID deviceCopy timersCopy).heap
          (specClone H s s_lastStateID deviceCopy timersCopy).child address buf
          = Except.ok (ok, H2, c2) ∧
        (∀ h, h < 2 ^ 64 → h ≠ failAddress → ∃ v s3 s4,
          specReadByte E (specClone H s s_lastStateID deviceCopy timersCopy).heap s h
            = Except.ok (v, s3) ∧
          specReadByte E H2 s h = Except.ok (v, s4)) ∧
        (∀ (readType : AddressType) (a n : Nat), a < 2 ^ 64 → ∃ out s3 s4,
          readMemoryConcrete E (specClone H s s_lastStateID deviceCopy timersCopy).heap
            readType s a n = Except.ok (out, s3) ∧
          readMemoryConcrete E H2 readType s a n = Except.ok (out, s4))) ∧
    (∀ (addressType : AddressType) (address : Nat) (buf : List Nat), address < 2 ^ 64 →
      ∃ ok H2 p2,
        writeMemoryConcrete E addressType (specClone H s s_lastStateID deviceCopy timersCopy).heap
          s address buf = Except.ok (ok, H2, p2) ∧
        (∀ h, h < 2 ^ 64 → h ≠ failAddress → ∃ v c3 c4,
          specReadByte E (specClone H s s_lastStateID deviceCopy timersCopy).heap
            (specClone H s s_lastStateID deviceCopy timersCopy).child h = Except.ok (v, c3) ∧
          specReadByte E H2 (specClone H s s_lastStateID deviceCopy timersCopy).child h
            = Except.ok (v, c4)) ∧
        (∀ (readType : AddressType) (a n : Nat), a < 2 ^ 64 → ∃ out c3 c4,
          readMemoryConcrete E (specClone H s s_lastStateID deviceCopy timersCopy).heap
            readType (specClone H s s_lastStateID deviceCopy timersCopy).child a n
            = Except.ok (out, c3) ∧
          readMemoryConcrete E H2 readType
            (specClone H s s_lastStateID deviceCopy timersCopy).child a n
            = Except.ok (out, c4))) := by
  have hparent : wellFormed (specClone H s s_lastStateID deviceCopy timersCopy).heap s := hwf
  have hchild : wellFormed (specClone H s s_lastStateID deviceCopy timersCopy).heap
      (specClone H s s_lastStateID deviceCopy timersCopy).child :=
    ⟨hwf.1, hwf.2.1, fun _ => Or.inl rfl⟩
  have hshp : boundToShared (specClone H s s_lastStateID deviceCopy timersCopy).heap s :=
    fun _ _ => rfl
  have hshc : boundToShared (specClone H s s_lastStateID deviceCopy timersCopy).heap
      (specClone H s s_lastStateID deviceCopy timersCopy).child := fun _ _ => rfl
  refine ⟨rfl, ?_, ?_⟩
  · intro addressType address buf haddr
    exact write_isolated_from E _ _ s hchild hparent hshp addressType address buf haddr
  · intro addressType address buf haddr
    exact write_isolated_from E _ s _ hparent hchild hshc addressType address buf haddr

theorem C12_fork_isolation_witness :
    wellFormed sampleHeap sampleMemState ∧
    (specClone sampleHeap sampleMemState 0 41 42).child.m_memCache
      = S2EMemObjectCache.init 101 ∧
    (∀ (addressType : AddressType) (address : Nat) (buf : List Nat), address < 2 ^ 64 →
      ∃ ok H2 c2,
        writeMemoryConcrete sampleEmulator addressType
          (specClone sampleHeap sampleMemState 0 41 42).heap
          (specClone sampleHeap sampleMemState 0 41 42).child address buf
          = Except.ok (ok, H2, c2) ∧
        (∀ h, h < 2 ^ 64 → h ≠ failAddress → ∃ v s3 s4,
          specReadByte sampleEmulator (specClone sampleHeap sampleMemState 0 41 42).heap
            sampleMemState h = Except.ok (v, s3) ∧
          specReadByte sampleEmulator H2 sampleMemState h = Except.ok (v, s4)) ∧
        (∀ (readType : AddressType) (a n : Nat), a < 2 ^ 64 → ∃ out s3 s4,
          readMemoryConcrete sampleEmulator (specClone sampleHeap sampleMemState 0 41 42).heap
            readType sampleMemState a n = Except.ok (out, s3) ∧
          readMemoryConcrete sampleEmulator H2 readType sampleMemState a n
            = Except.ok (out, s4))) ∧
    (∀ (addressType : AddressType) (address : Nat) (buf : List Nat), address < 2 ^ 64 →
      ∃ ok H2 p2,
        writeMemoryConcrete sampleEmulator addressType
          (specClone sampleHeap sampleMemState 0 41 42).heap sampleMemState address buf
          = Except.ok (ok, H2, p2) ∧
        (∀ h, h < 2 ^ 64 → h ≠ failAddress → ∃ v c3 c4,
          specReadByte sampleEmulator (specClone sampleHeap sampleMemState 0 41 42).heap
            (specClone sampleHeap sampleMemState 0 41 42).child h = Except.ok (v, c3) ∧
          specReadByte sampleEmulator H2 (specClone sampleHeap sampleMemState 0 41 42).child h
            = Except.ok (v, c4)) ∧
        (∀ (readType : AddressType) (a n : Nat), a < 2 ^ 64 → ∃ out c3 c4,
          readMemoryConcrete sampleEmulator (specClone sampleHeap sampleMemState 0 41 42).heap
            readType (specClone sampleHeap sampleMemState 0 41 42).child a n
            = Except.ok (out, c3) ∧
          readMemoryConcrete sampleEmulator H2 readType
            (specClone sampleHeap sampleMemState 0 41 42).child a n
            = Except.ok (out, c4))) :=
  ⟨sampleMemState_wellFormed,
    C12_fork_isolation sampleEmulator sampleHeap sampleMemState 0 41 42
      sampleMemState_wellFormed⟩

end S2E
